import Mathlib

/-!
# fulog: a shallow embedding of `include/fulog.hpp`

The header keeps six globals (`dir`, `mutex`, `file`, `app_name`, `log_name`,
`timestamp_format`) and mutates them, and the filesystem, from its public
functions.  Here the globals and the part of the world they act on are one
explicit `State`; every public function is a function `State → Outcome`, where
an `Outcome` is the state the call leaves behind together with the exception it
threw, if any (a C++ exception does not undo what was done before the throw).

* Every public function takes the `std::mutex` for its whole body, so a call is
  one atomic step and the lock itself is not represented.
* What the operating system and the standard library decide (the clock, whether
  an open, a write, a flush or a removal succeeds) is an input of each call, the
  `Env`.
* What depends on the build target (`os::get_data_home_dir`, `os::get_pid`,
  `std::filesystem::path::operator/`, `parent_path`, `std::vformat` on a
  `sys_seconds`, the tick of `system_clock`) is a `Platform`.
* `std::filesystem::path` values are an abstract type `Path` whose equality is
  `operator==` of paths.  Unequal paths may name one file (`/r/d` and `/r/d/.`):
  every filesystem call reaches its file through `Platform.canonical`, and the
  filesystem is keyed by canonical paths.
* The `std::ofstream` buffers: `<<` puts the bytes in the put area, `flush()`
  and `close()` write the put area to the file.
* Time points and durations are integers counting `system_clock` ticks; the
  64-bit counts of the source are taken not to overflow.
* Only this process changes the filesystem.
-/

set_option linter.unusedVariables false
set_option linter.unusedSectionVars false

namespace fu

/-! ## The filesystem -/

/-- The `std::filesystem::file_type` that `fs::status` reports for a directory
entry, symbolic links followed; `not_found` is a dangling symbolic link. -/
inductive FileType where
  | not_found
  | regular
  | directory
  | other
deriving DecidableEq, Repr

/-- One directory entry.  `type`, `mtime` and `content` are what is seen through
the entry (the target's, when the entry is a symbolic link); `mtime` is the
last write time, kept in `system_clock` ticks. -/
structure Node where
  type : FileType
  is_symlink : Bool
  mtime : Int
  content : String
deriving DecidableEq, Repr

/-- The filesystem: the directory entries, by canonical path. -/
abbrev FS (Path : Type) := List (Path × Node)

namespace FS

variable {Path : Type} [DecidableEq Path]

/-- The entry at `p`, if there is one. -/
def lookup : FS Path → Path → Option Node
  | [], _ => none
  | (q, n) :: rest, p => if q = p then some n else lookup rest p

/-- Put `n` at `p`, replacing the entry there if there is one. -/
def set : FS Path → Path → Node → FS Path
  | [], p, n => [(p, n)]
  | (q, m) :: rest, p, n => if q = p then (q, n) :: rest else (q, m) :: set rest p n

/-- Remove the entry at `p`. -/
def erase : FS Path → Path → FS Path
  | [], _ => []
  | (q, n) :: rest, p => if q = p then erase rest p else (q, n) :: erase rest p

/-- The content of the regular file at `p`. -/
def content (fs : FS Path) (p : Path) : Option String :=
  match lookup fs p with
  | some n => if n.type = FileType.regular then some n.content else none
  | none => none

/-- Whether the entry at `p` exists: its status is not `not_found`. -/
def path_exists (fs : FS Path) (p : Path) : Bool :=
  match lookup fs p with
  | some n => decide (n.type ≠ FileType.not_found)
  | none => false

/-- The model of `fs::is_regular_file` on the entry at `p`.  The source passes a `directory_entry`,
which converts to its path, so this is `status(p).type() == regular`: symbolic
links are followed. -/
def is_regular_file (fs : FS Path) (p : Path) : Bool :=
  match lookup fs p with
  | some n => decide (n.type = FileType.regular)
  | none => false

/-- The model of `fs::last_write_time` on the entry at `p`. -/
def last_write_time (fs : FS Path) (p : Path) : Int :=
  match lookup fs p with
  | some n => n.mtime
  | none => 0

/-- What opening `p` for appending does to the filesystem: a missing file is
created empty, a regular file is left as it is, anything else cannot be
opened for writing. -/
def open_append (fs : FS Path) (p : Path) (now : Int) : Option (FS Path) :=
  match lookup fs p with
  | none => some (set fs p ⟨FileType.regular, false, now, ""⟩)
  | some n =>
    match n.type with
    | FileType.regular => some fs
    | FileType.not_found => some (set fs p ⟨FileType.regular, n.is_symlink, now, ""⟩)
    | _ => none

/-- Append `data` to the file at `p`. -/
def append (fs : FS Path) (p : Path) (data : String) (now : Int) : FS Path :=
  match lookup fs p with
  | some n => set fs p ⟨n.type, n.is_symlink, now, n.content ++ data⟩
  | none => fs

/-- What `fs::create_directories(p)` does: `p` becomes a directory.  The chain
of missing ancestors it also creates is not tracked entry by entry. -/
def create_directories (fs : FS Path) (p : Path) (now : Int) : FS Path :=
  match lookup fs p with
  | some n => if n.type = FileType.not_found then set fs p ⟨FileType.directory, n.is_symlink, now, ""⟩ else fs
  | none => set fs p ⟨FileType.directory, false, now, ""⟩

end FS

/-! ## Platform, environment, state -/

/-- What the build target supplies. -/
structure Platform (Path : Type) where
  /-- The default-constructed `fs::path`, the only one with `empty()`. -/
  empty_path : Path
  /-- The value of `os::get_data_home_dir()` at static initialisation. -/
  get_data_home_dir : Path
  /-- The value of `os::get_pid()` at static initialisation. -/
  get_pid : Int
  /-- The model of `fs::path::operator/` with a string on the right. -/
  append : Path → String → Path
  /-- The model of `fs::path::parent_path`. -/
  parent_path : Path → Path
  /-- The model of `fs::weakly_canonical`: the path that stands for the file `p`
  names.  Two paths name one file exactly when their canonical paths are
  equal, whatever `.` and `..` elements, separators or links they go through. -/
  canonical : Path → Path
  /-- The model of `std::vformat(fmt, make_format_args(t))` for a `sys_seconds` `t`,
  `none` when it throws `std::format_error`. -/
  vformat : String → Int → Option String
  /-- The number of `system_clock::duration` ticks in a second. -/
  ticks_per_second : Nat

/-- What the world decides during one call. -/
structure Env (Path : Type) where
  /-- The value of `system_clock::now()`. -/
  now : Int
  /-- Whether the status queries (`fs::exists`, `fs::is_regular_file`,
  `fs::last_write_time`) return rather than throw. -/
  status_ok : Bool
  /-- Whether `fs::create_directories` returns rather than throws. -/
  create_directories_ok : Bool
  /-- Whether the operating system lets the file be opened. -/
  open_ok : Bool
  /-- Whether the bytes inserted into the stream are accepted. -/
  write_ok : Bool
  /-- Whether `flush()` succeeds. -/
  flush_ok : Bool
  /-- Whether `close()` succeeds. -/
  close_ok : Bool
  /-- How many bytes of a write that fails still reach the file. -/
  short_count : Nat
  /-- Whether `fs::remove` of an entry returns rather than throws. -/
  remove_ok : Path → Bool

/-- An open file of the `std::ofstream`.  `id` tells one open from the next;
`unlinked` records that the directory entry the file was opened through has
been removed since: what is written then no longer shows at `path`. -/
structure Handle (Path : Type) where
  path : Path
  id : Nat
  unlinked : Bool
deriving DecidableEq, Repr

/-- The `std::ofstream` `global::file`: `is_open()` is `handle.isSome`, `failed`
is `rdstate() != goodbit`, `pending` is the content of the put area, the
bytes inserted and not yet written to the file. -/
structure OFStream (Path : Type) where
  handle : Option (Handle Path)
  failed : Bool
  pending : String
deriving DecidableEq, Repr

/-- The operations on the stream and the filesystem, as they happen. -/
inductive Event (Path : Type) where
  | close (path : Path)
  | create_directories (path : Path)
  | opened (path : Path) (ok : Bool)
  | write (path : Path) (data : String)
  | remove (path : Path)
deriving DecidableEq, Repr

/-- The globals of `fu::detail::global` (the mutex apart), the filesystem, and
the record of what was done: `opens` counts the successful opens, `trace`
lists the operations. -/
structure State (Path : Type) where
  dir : Path
  file : OFStream Path
  app_name : String
  log_name : String
  timestamp_format : String
  fs : FS Path
  opens : Nat
  trace : List (Event Path)

/-- The exceptions the header lets escape. -/
inductive Error (Path : Type) where
  /-- The `std::runtime_error` "Could not open file: ..." of `open_file`. -/
  | could_not_open_file (path : Path)
  /-- A `std::filesystem::filesystem_error`. -/
  | filesystem_error
  /-- A `std::format_error`. -/
  | format_error
deriving DecidableEq, Repr

/-- The result of a call: the state it leaves and the exception it threw, `none`
when it returned normally. -/
structure Outcome (Path : Type) where
  state : State Path
  error : Option (Error Path)

/-- The state at process start: every global default-constructed. -/
def State.init {Path : Type} (P : Platform Path) (fs : FS Path) : State Path :=
  { dir := P.empty_path, file := ⟨none, false, ""⟩, app_name := "", log_name := "",
    timestamp_format := "", fs := fs, opens := 0, trace := [] }

section Model

variable {Path : Type} [DecidableEq Path]

/-! ## The `std::ofstream` and `std::filesystem` calls the header makes -/

/-- The model of `global::file.is_open()`. -/
def is_open (s : State Path) : Bool := s.file.handle.isSome

/-- The first bytes of `data` that a failing write still leaves in the file. -/
def short_write (env : Env Path) (data : String) : String :=
  String.mk (data.toList.take env.short_count)

/-- The filesystem after `data` is written through the open file `h`: appended to
the file `h.path` names, unless that file was cut off from its path or there
is nothing to write. -/
def write_out (P : Platform Path) (h : Handle Path) (data : String) (now : Int)
    (fs : FS Path) : FS Path :=
  if h.unlinked || decide (data = "") then fs
  else FS.append fs (P.canonical h.path) data now

/-- The record of writing `data` through `h`. -/
def write_events (h : Handle Path) (data : String) : List (Event Path) :=
  if data = "" then [] else [Event.write h.path data]

/-- The model of `global::file.close()`: the put area is written out, fully when the
close succeeds; the file is closed whatever happens; a failing close, and
closing a stream that is not open, set `failbit`. -/
def ofstream_close (P : Platform Path) (env : Env Path) (s : State Path) : State Path :=
  match s.file.handle with
  | none => { s with file := ⟨none, true, s.file.pending⟩ }
  | some h =>
    let written := if env.close_ok then s.file.pending else short_write env s.file.pending
    { s with fs := write_out P h written env.now s.fs,
             file := ⟨none, s.file.failed || !env.close_ok, ""⟩,
             trace := s.trace ++ write_events h written ++ [Event.close h.path] }

/-- The model of `global::file.open(path, std::ios::app)`: on success the state
bits are cleared and the put area is empty, on failure (also when the
stream is already open) `failbit` is set. -/
def ofstream_open (P : Platform Path) (env : Env Path) (path : Path) (s : State Path) :
    State Path :=
  match s.file.handle with
  | some h => { s with file := ⟨some h, true, s.file.pending⟩ }
  | none =>
    match (if env.open_ok then FS.open_append s.fs (P.canonical path) env.now else none) with
    | some fs1 =>
      { s with fs := fs1, file := ⟨some ⟨path, s.opens, false⟩, false, ""⟩,
               opens := s.opens + 1, trace := s.trace ++ [Event.opened path true] }
    | none =>
      { s with file := ⟨none, true, s.file.pending⟩,
               trace := s.trace ++ [Event.opened path false] }

/-- The model of `global::file << data`: on a good stream the bytes go to the put
area; a rejected insertion (a line the put area cannot take is written to
the file at once) sets `badbit` and may leave its first bytes in the file.
A stream that is not good takes nothing. -/
def ofstream_insert (P : Platform Path) (env : Env Path) (data : String) (s : State Path) :
    State Path :=
  match s.file.handle with
  | none => { s with file := ⟨none, true, s.file.pending⟩ }
  | some h =>
    if s.file.failed then s
    else if env.write_ok then { s with file := ⟨some h, false, s.file.pending ++ data⟩ }
    else
      { s with fs := write_out P h (short_write env (s.file.pending ++ data)) env.now s.fs,
               file := ⟨some h, true, s.file.pending⟩,
               trace := s.trace ++ write_events h (short_write env (s.file.pending ++ data)) }

/-- The model of `global::file.flush()`: on a good stream the put area is written to
the file; a failing flush sets `badbit`, may leave the first bytes in the
file, and keeps the put area.  On a stream that is not good, or not open,
nothing happens. -/
def ofstream_flush (P : Platform Path) (env : Env Path) (s : State Path) : State Path :=
  match s.file.handle with
  | none => s
  | some h =>
    if s.file.failed then s
    else if env.flush_ok then
      { s with fs := write_out P h s.file.pending env.now s.fs,
               file := ⟨some h, false, ""⟩,
               trace := s.trace ++ write_events h s.file.pending }
    else
      { s with fs := write_out P h (short_write env s.file.pending) env.now s.fs,
               file := ⟨some h, true, s.file.pending⟩,
               trace := s.trace ++ write_events h (short_write env s.file.pending) }

/-- The model of `fs::exists(p)`. -/
def fs_exists (P : Platform Path) (fs : FS Path) (p : Path) : Bool :=
  FS.path_exists fs (P.canonical p)

/-- The model of `fs::create_directories(p)`, which throws when it fails. -/
def fs_create_directories (P : Platform Path) (env : Env Path) (p : Path) (s : State Path) :
    Outcome Path :=
  if env.create_directories_ok then
    ⟨{ s with fs := FS.create_directories s.fs (P.canonical p) env.now,
              trace := s.trace ++ [Event.create_directories p] }, none⟩
  else ⟨s, some Error.filesystem_error⟩

/-- The model of `fs::remove(p)`, which throws when it fails.  The entry goes; a file
that is open through it stays open, cut off from its path. -/
def fs_remove (P : Platform Path) (env : Env Path) (p : Path) (s : State Path) :
    Outcome Path :=
  if env.remove_ok p then
    ⟨{ s with fs := FS.erase s.fs (P.canonical p),
              file := ⟨s.file.handle.map (fun h =>
                         if P.canonical h.path = P.canonical p then ⟨h.path, h.id, true⟩ else h),
                       s.file.failed, s.file.pending⟩,
              trace := s.trace ++ [Event.remove p] }, none⟩
  else ⟨s, some Error.filesystem_error⟩

/-- Whether `fs::directory_iterator(dir)` can be constructed: `dir` is a directory. -/
def is_directory (P : Platform Path) (fs : FS Path) (dir : Path) : Bool :=
  match FS.lookup fs (P.canonical dir) with
  | some n => decide (n.type = FileType.directory)
  | none => false

/-- The entries `fs::directory_iterator(dir)` yields: those whose parent is the
directory `dir` names. -/
def directory_iterator (P : Platform Path) (fs : FS Path) (dir : Path) : List Path :=
  (fs.map (fun e => e.1)).filter
    (fun p => decide (P.canonical (P.parent_path p) = P.canonical dir ∧ p ≠ P.canonical dir))

namespace detail

/-! ## `fu::detail` -/

/-- The source constant DEFAULT_DIR. -/
def DEFAULT_DIR (P : Platform Path) : Path := P.get_data_home_dir

/-- The source constant DEFAULT_APP_NAME. -/
def DEFAULT_APP_NAME : String := "fulog"

/-- The source constant DEFAULT_LOG_NAME: `std::to_string(os::get_pid())`. -/
def DEFAULT_LOG_NAME (P : Platform Path) : String := toString P.get_pid

/-- The source constant DEFAULT_TIMESTAMP_FORMAT. -/
def DEFAULT_TIMESTAMP_FORMAT : String := "\x7b:%Y-%m-%d %H:%M:%S\x7d"

def resolve_dir (P : Platform Path) (s : State Path) : Path :=
  if s.dir = P.empty_path then DEFAULT_DIR P else s.dir

def resolve_app_name (s : State Path) : String :=
  if s.app_name = "" then DEFAULT_APP_NAME else s.app_name

def resolve_log_name (P : Platform Path) (s : State Path) : String :=
  if s.log_name = "" then DEFAULT_LOG_NAME P else s.log_name

def resolve_timestamp_format (s : State Path) : String :=
  if s.timestamp_format = "" then DEFAULT_TIMESTAMP_FORMAT else s.timestamp_format

def get_file_path (P : Platform Path) (s : State Path) : Path :=
  P.append (P.append (resolve_dir P s) (resolve_app_name s)) (resolve_log_name P s ++ ".log")

def open_file (P : Platform Path) (env : Env Path) (s : State Path) : Outcome Path :=
  let path := get_file_path P s
  if !env.status_ok then ⟨s, some Error.filesystem_error⟩
  else
    let made :=
      if !(fs_exists P s.fs (P.parent_path path)) then
        fs_create_directories P env (P.parent_path (get_file_path P s)) s
      else ⟨s, none⟩
    match made.error with
    | some e => ⟨made.state, some e⟩
    | none =>
      let s1 := ofstream_open P env path made.state
      if !(is_open s1) then ⟨s1, some (Error.could_not_open_file path)⟩
      else ⟨s1, none⟩

def reopen_file_if_it_is_already_open (P : Platform Path) (env : Env Path) (s : State Path) :
    Outcome Path :=
  if is_open s then open_file P env (ofstream_close P env s)
  else ⟨s, none⟩

def open_file_if_it_is_not_already_open (P : Platform Path) (env : Env Path) (s : State Path) :
    Outcome Path :=
  if !(is_open s) then open_file P env s
  else ⟨s, none⟩

/-- File times are kept in `system_clock` ticks, so the clock cast is the identity. -/
def file_time_to_system_time (file_time : Int) : Int := file_time

/-- The duration `std::chrono::hours{n}` in `system_clock::duration` ticks. -/
def hours (P : Platform Path) (n : Int) : Int := n * 3600 * P.ticks_per_second

/-- The body of the `for` loop of `delete_old_files`, over the entries still to visit. -/
def delete_old_files_loop (P : Platform Path) (env : Env Path) (now : Int) (older_than : Int) :
    List Path → State Path → Outcome Path
  | [], s => ⟨s, none⟩
  | entry :: rest, s =>
    if FS.is_regular_file s.fs (P.canonical entry) then
      let last_write_time := FS.last_write_time s.fs (P.canonical entry)
      let last_write_time_system := file_time_to_system_time last_write_time
      let age := now - last_write_time_system
      if age > hours P 48 then
        let removed := fs_remove P env entry s
        match removed.error with
        | some e => ⟨removed.state, some e⟩
        | none => delete_old_files_loop P env now older_than rest removed.state
      else delete_old_files_loop P env now older_than rest s
    else delete_old_files_loop P env now older_than rest s

def delete_old_files (P : Platform Path) (env : Env Path) (dir : Path) (older_than : Int)
    (s : State Path) : Outcome Path :=
  let now := env.now
  if !env.status_ok then ⟨s, some Error.filesystem_error⟩
  else if !(fs_exists P s.fs dir) then ⟨s, none⟩
  else if !(is_directory P s.fs dir) then ⟨s, some Error.filesystem_error⟩
  else delete_old_files_loop P env now older_than (directory_iterator P s.fs dir) s

end detail

/-! ## `fu` -/

def set_dir (P : Platform Path) (env : Env Path) (path : Path) (s : State Path) : Outcome Path :=
  if path = s.dir then ⟨s, none⟩
  else detail.reopen_file_if_it_is_already_open P env { s with dir := path }

def set_application_name (P : Platform Path) (env : Env Path) (name : String) (s : State Path) :
    Outcome Path :=
  if name = s.app_name then ⟨s, none⟩
  else detail.reopen_file_if_it_is_already_open P env { s with app_name := name }

def set_log_name (P : Platform Path) (env : Env Path) (name : String) (s : State Path) :
    Outcome Path :=
  if name = s.log_name then ⟨s, none⟩
  else detail.reopen_file_if_it_is_already_open P env { s with log_name := name }

def set_timestamp_format (P : Platform Path) (env : Env Path) (format : String) (s : State Path) :
    Outcome Path :=
  ⟨{ s with timestamp_format := format }, none⟩

def delete_old_files (P : Platform Path) (env : Env Path) (older_than : Int) (s : State Path) :
    Outcome Path :=
  detail.delete_old_files P env (P.append (detail.resolve_dir P s) (detail.resolve_app_name s))
    older_than s

/-- The line `std::format("\x7b\x7d \x7b\x7d\n", timestamp, msg)`. -/
def format_line (timestamp msg : String) : String := timestamp ++ " " ++ msg ++ "\n"

/-- The overload `fu::log(std::string_view)`. -/
def log (P : Platform Path) (env : Env Path) (msg : String) (s : State Path) : Outcome Path :=
  let now := env.now
  let now_seconds := Int.tdiv now P.ticks_per_second
  let timestamp_fmt := detail.resolve_timestamp_format s
  match P.vformat timestamp_fmt now_seconds with
  | none => ⟨s, some Error.format_error⟩
  | some timestamp =>
    let line := format_line timestamp msg
    let opened := detail.open_file_if_it_is_not_already_open P env s
    match opened.error with
    | some e => ⟨opened.state, some e⟩
    | none => ⟨ofstream_flush P env (ofstream_insert P env line opened.state), none⟩

/-- A `std::source_location`, as far as the header reads it. -/
structure SourceLocation where
  file_name : String
  line : Nat

/-- The overload `fu::log(std::string_view, std::source_location)`. -/
def log_loc (P : Platform Path) (env : Env Path) (msg : String) (loc : SourceLocation)
    (s : State Path) : Outcome Path :=
  log P env (msg ++ " [" ++ loc.file_name ++ ":" ++ toString loc.line ++ "]\n") s

end Model

/-! ## A sample platform

A POSIX target, for evaluating the model on concrete inputs: paths are their
native strings, `system_clock` ticks in nanoseconds, and `std::vformat` is
covered for format strings that are one replacement field with a chrono
specification made of `%Y %m %d %H %M %S` and literal characters. -/

namespace sample

/-- The POSIX `operator/`: an absolute right-hand side replaces the path, otherwise
it is appended after a separator. -/
def append (p : String) (q : String) : String :=
  match q.toList with
  | '/' :: _ => q
  | _ =>
    match p.toList.getLast? with
    | none => q
    | some '/' => p ++ q
    | some _ => p ++ "/" ++ q

/-- The POSIX `parent_path`: the path without its last element. -/
def parent_path (p : String) : String :=
  let stem :=
    ((p.toList.reverse.dropWhile (fun c => c != '/')).dropWhile (fun c => c == '/')).reverse
  match stem, p.toList with
  | [], '/' :: _ => "/"
  | _, _ => String.mk stem

/-- The elements of a path between its separators. -/
def split_elements (cs : List Char) : List (List Char) :=
  cs.foldr (fun c acc =>
    if c = '/' then [] :: acc
    else
      match acc with
      | [] => [[c]]
      | e :: rest => (c :: e) :: rest) [[]]

/-- The elements without the empty ones and `.`, each `..` taking back the element
before it; `stack` holds the elements kept so far, last first. -/
def normal_elements : List (List Char) → List (List Char) → List (List Char)
  | stack, [] => stack.reverse
  | stack, e :: rest =>
    if e = [] ∨ e = ['.'] then normal_elements stack rest
    else if e = ['.', '.'] then normal_elements (stack.drop 1) rest
    else normal_elements (e :: stack) rest

/-- The canonical form of an absolute path on a filesystem without links: its
normal elements, each after one separator. -/
def canonical (p : String) : String :=
  let body := String.mk (List.intercalate ['/'] (normal_elements [] (split_elements p.toList)))
  match p.toList with
  | '/' :: _ => "/" ++ body
  | _ => body

/-- Decimal, zero-padded on the left to `width` digits. -/
def pad (width : Nat) (n : Nat) : String :=
  let digits := Nat.toDigits 10 n
  String.mk (List.replicate (width - digits.length) '0' ++ digits)

/-- The civil year, month and day of a day count since 1970-01-01. -/
def civil_from_days (days : Int) : Int × Int × Int :=
  let z := days + 719468
  let era := z / 146097
  let doe := z % 146097
  let yoe := (doe - doe / 1460 + doe / 36524 - doe / 146096) / 365
  let doy := doe - (365 * yoe + yoe / 4 - yoe / 100)
  let mp := (5 * doy + 2) / 153
  let d := doy - (153 * mp + 2) / 5 + 1
  let m := if mp < 10 then mp + 3 else mp - 9
  let y := yoe + era * 400 + (if m ≤ 2 then 1 else 0)
  (y, m, d)

/-- One conversion specifier applied to the time `t`, in seconds since the epoch. -/
def chrono_field (t : Int) (c : Char) : Option String :=
  let date := civil_from_days (t / 86400)
  let secs := t % 86400
  match c with
  | 'Y' => if date.1 < 0 then none else some (pad 4 date.1.toNat)
  | 'm' => some (pad 2 date.2.1.toNat)
  | 'd' => some (pad 2 date.2.2.toNat)
  | 'H' => some (pad 2 (secs / 3600).toNat)
  | 'M' => some (pad 2 (secs % 3600 / 60).toNat)
  | 'S' => some (pad 2 (secs % 60).toNat)
  | _ => none

/-- The chrono specification up to the closing brace, which must end the string. -/
def chrono_spec (t : Int) : List Char → Option String
  | [] => none
  | '%' :: c :: rest =>
    match chrono_field t c, chrono_spec t rest with
    | some field, some tail => some (field ++ tail)
    | _, _ => none
  | c :: rest =>
    if c = '}' then (if rest = [] then some "" else none)
    else if c = '{' ∨ c = '%' then none
    else (chrono_spec t rest).map (fun tail => String.singleton c ++ tail)

/-- The sample `std::vformat` on a `sys_seconds`. -/
def vformat (fmt : String) (t : Int) : Option String :=
  match fmt.toList with
  | '{' :: ':' :: spec => chrono_spec t spec
  | _ => none

/-- The sample platform: data home `/home/u/.local/share`, process 4242. -/
def posix : Platform String :=
  { empty_path := "", get_data_home_dir := "/home/u/.local/share", get_pid := 4242,
    append := append, parent_path := parent_path, canonical := canonical, vformat := vformat,
    ticks_per_second := 1000000000 }

/-- An environment in which every operation succeeds, at time `now`. -/
def fine (now : Int) : Env String :=
  { now := now, status_ok := true, create_directories_ok := true, open_ok := true,
    write_ok := true, flush_ok := true, close_ok := true, short_count := 0,
    remove_ok := fun _ => true }

/-- The state at process start on an empty filesystem. -/
def started : State String := State.init posix []

/-- The state after one `log("a")` at the epoch. -/
def logged : State String := (log posix (fine 0) "a" started).state

/-- Forty-nine hours, in ticks. -/
def forty_nine_hours : Int := 49 * 3600 * 1000000000

/-- One hour, in ticks. -/
def one_hour : Int := 3600 * 1000000000

/-- The state after `log("a")` at the epoch and `delete_old_files` forty-nine hours later. -/
def cleaned : State String := (delete_old_files posix (fine forty_nine_hours) 0 logged).state

/-- The state after `set_dir("/r/d")` and `set_log_name("t")`. -/
def roomed : State String :=
  (set_log_name posix (fine 0) "t" (set_dir posix (fine 0) "/r/d" started).state).state

/-- The state after a first `log("a")` there. -/
def first_line : State String := (log posix (fine 0) "a" roomed).state

/-- The call `set_dir("/r/d/.")` after that, the same directory under another path. -/
def dotted : Outcome String := set_dir posix (fine 0) "/r/d/." first_line

/-- An environment in which the stream rejects what is inserted. -/
def write_refused : Env String :=
  { now := 0, status_ok := true, create_directories_ok := true, open_ok := true,
    write_ok := false, flush_ok := true, close_ok := true, short_count := 0,
    remove_ok := fun _ => true }

/-- An environment in which the flush fails. -/
def flush_refused : Env String :=
  { now := 0, status_ok := true, create_directories_ok := true, open_ok := true,
    write_ok := true, flush_ok := false, close_ok := true, short_count := 0,
    remove_ok := fun _ => true }

/-- An environment in which the file cannot be opened. -/
def open_refused : Env String :=
  { now := 0, status_ok := true, create_directories_ok := true, open_ok := false,
    write_ok := true, flush_ok := true, close_ok := true, short_count := 0,
    remove_ok := fun _ => true }

/-- The state after `log("a")` and a `log("b")` whose flush failed. -/
def half_written : State String := (log posix flush_refused "b" logged).state

/-- The default log path of the sample platform. -/
def log_path : String := "/home/u/.local/share/fulog/4242.log"

/-- A log directory holding one regular file last written at the epoch. -/
def one_file : State String :=
  State.init posix
    [("/home/u/.local/share/fulog", ⟨FileType.directory, false, 0, ""⟩),
     ("/home/u/.local/share/fulog/1.log", ⟨FileType.regular, false, 0, "x\n"⟩)]

/-- A log directory holding one symbolic link to a regular file last written at the epoch. -/
def one_link : State String :=
  State.init posix
    [("/home/u/.local/share/fulog", ⟨FileType.directory, false, 0, ""⟩),
     ("/home/u/.local/share/fulog/link.log", ⟨FileType.regular, true, 0, "x\n"⟩)]

end sample

end fu

/-! ## Reachable states and the vocabulary of the specification -/

namespace fu

section Vocabulary

variable {Path : Type} [DecidableEq Path]

/-- Opening `path` fails: the status of its parent directory cannot be read, the
parent directory is missing and cannot be created, or the file cannot be opened. -/
def open_fails (P : Platform Path) (env : Env Path) (fs : FS Path) (path : Path) : Bool :=
  if !env.status_ok then true
  else if !(fs_exists P fs (P.parent_path path)) then
    !env.create_directories_ok ||
      !(env.open_ok &&
        (FS.open_append (FS.create_directories fs (P.canonical (P.parent_path path)) env.now)
          (P.canonical path) env.now).isSome)
  else !(env.open_ok && (FS.open_append fs (P.canonical path) env.now).isSome)

/-- The states the public functions can bring about from process start, whatever the
environment does and whether or not the calls throw. -/
inductive Reachable (P : Platform Path) : State Path → Prop where
  | init (fs : FS Path) : Reachable P (State.init P fs)
  | set_dir (env : Env Path) (path : Path) (s : State Path) :
      Reachable P s → Reachable P (set_dir P env path s).state
  | set_application_name (env : Env Path) (name : String) (s : State Path) :
      Reachable P s → Reachable P (set_application_name P env name s).state
  | set_log_name (env : Env Path) (name : String) (s : State Path) :
      Reachable P s → Reachable P (set_log_name P env name s).state
  | set_timestamp_format (env : Env Path) (format : String) (s : State Path) :
      Reachable P s → Reachable P (set_timestamp_format P env format s).state
  | log (env : Env Path) (msg : String) (s : State Path) :
      Reachable P s → Reachable P (log P env msg s).state
  | log_loc (env : Env Path) (msg : String) (loc : SourceLocation) (s : State Path) :
      Reachable P s → Reachable P (log_loc P env msg loc s).state
  | delete_old_files (env : Env Path) (older_than : Int) (s : State Path) :
      Reachable P s → Reachable P (delete_old_files P env older_than s).state

/-- The open file, if any, is the one at the resolved log path, and unless its
entry was removed it is a regular file there; a good stream has nothing
pending in its put area. -/
def Attached (P : Platform Path) (s : State Path) : Prop :=
  (∀ h, s.file.handle = some h →
    h.path = detail.get_file_path P s ∧
      (h.unlinked = false → FS.is_regular_file s.fs (P.canonical h.path) = true)) ∧
    (s.file.failed = false → s.file.pending = "")

/-- The two states hold the same four configuration fields. -/
def SameConfig (t s : State Path) : Prop :=
  t.dir = s.dir ∧ t.app_name = s.app_name ∧ t.log_name = s.log_name ∧
    t.timestamp_format = s.timestamp_format

/-- The next `log` call opens the file: in a cooperating environment (the format
string is accepted and the open does not fail) it returns normally with the
stream open at the resolved path, on a file opened by that very call. -/
def NextLogOpens (P : Platform Path) (s : State Path) : Prop :=
  ∀ (env : Env Path) (msg ts : String),
    P.vformat (detail.resolve_timestamp_format s) (Int.tdiv env.now P.ticks_per_second) = some ts →
    open_fails P env s.fs (detail.get_file_path P s) = false →
    (log P env msg s).error = none ∧
      (log P env msg s).state.file.handle = some ⟨detail.get_file_path P s, s.opens, false⟩

/-- The call `o`, made in state `s`, failed on the open: it threw, no file content
changed, the stream is closed, and the next `log` call opens anew. -/
def FailedClosed (P : Platform Path) (s : State Path) (o : Outcome Path) : Prop :=
  o.error ≠ none ∧ o.state.file.handle = none ∧
    (∀ q, FS.content o.state.fs q = FS.content s.fs q) ∧ NextLogOpens P o.state

/-- The setter call `o`, made in state `s` with the stream open, failed on the
reopen: it threw, the stream is closed, and the next `log` call opens anew;
no file but the one that was open changed, and that one did not change
either when the stream held nothing pending. -/
def FailedReopen (P : Platform Path) (s : State Path) (o : Outcome Path) : Prop :=
  o.error ≠ none ∧ o.state.file.handle = none ∧ NextLogOpens P o.state ∧
    (∀ h, s.file.handle = some h → ∀ q, q ≠ P.canonical h.path →
      FS.content o.state.fs q = FS.content s.fs q) ∧
    (s.file.pending = "" → ∀ q, FS.content o.state.fs q = FS.content s.fs q)

/-- The call `o` reopened the stream at `new`: it returned normally, the stream is
open at `new`, which is the log path of the configuration it left, and a
following `log` that goes through appends its one line to the file `new`
names and, when `old` names another file, leaves the file `old` names as
it was. -/
def ReopenedAt (P : Platform Path) (old new : Path) (o : Outcome Path) : Prop :=
  o.error = none ∧
    (∃ h, o.state.file.handle = some h ∧ h.path = new) ∧
    detail.get_file_path P o.state = new ∧
    ∀ (env : Env Path) (msg : String),
      (log P env msg o.state).error = none →
      (log P env msg o.state).state.file.failed = false →
      ∃ ts, P.vformat
          (if o.state.timestamp_format = "" then "\x7b:%Y-%m-%d %H:%M:%S\x7d"
            else o.state.timestamp_format)
          (Int.tdiv env.now P.ticks_per_second) = some ts ∧
        FS.content (log P env msg o.state).state.fs (P.canonical new) =
          some ((FS.content o.state.fs (P.canonical new)).getD "" ++
            (ts ++ " " ++ msg ++ "\n")) ∧
        (P.canonical old ≠ P.canonical new →
          FS.content (log P env msg o.state).state.fs (P.canonical old) =
            FS.content o.state.fs (P.canonical old))

end Vocabulary

end fu

/-! ## Facts about the filesystem operations -/

namespace fu

namespace FS

variable {Path : Type} [DecidableEq Path]

theorem lookup_set (fs : FS Path) (p q : Path) (n : Node) :
    lookup (set fs p n) q = if p = q then some n else lookup fs q := by
  induction fs with
  | nil =>
    by_cases h : p = q <;> simp [set, lookup, h]
  | cons e rest ih =>
    obtain ⟨r, m⟩ := e
    by_cases h1 : r = p
    · subst h1
      by_cases h2 : r = q <;> simp [set, lookup, h2]
    · by_cases h2 : r = q
      · subst h2
        have h3 : ¬ p = r := fun h => h1 h.symm
        simp [set, lookup, h1, h3]
      · simp [set, lookup, h1, h2, ih]

theorem lookup_erase (fs : FS Path) (p q : Path) :
    lookup (erase fs p) q = if p = q then none else lookup fs q := by
  induction fs with
  | nil => simp [erase, lookup]
  | cons e rest ih =>
    obtain ⟨r, m⟩ := e
    by_cases h1 : r = p
    · subst h1
      by_cases h2 : r = q
      · subst h2
        simpa [erase] using ih
      · simp [erase, lookup, h2, ih]
    · by_cases h2 : r = q
      · subst h2
        have h3 : ¬ p = r := fun h => h1 h.symm
        simp [erase, lookup, h1, h3]
      · simp [erase, lookup, h1, h2, ih]

theorem lookup_append (fs : FS Path) (p q : Path) (data : String) (now : Int) :
    lookup (append fs p data now) q =
      if p = q then (lookup fs p).map (fun n => ⟨n.type, n.is_symlink, now, n.content ++ data⟩)
      else lookup fs q := by
  unfold append
  cases h : lookup fs p with
  | none =>
    by_cases hq : p = q
    · subst hq
      simp [h]
    · simp [hq]
  | some n => simp [lookup_set]

theorem content_other_of_lookup {fs1 fs2 : FS Path} {q : Path}
    (h : lookup fs1 q = lookup fs2 q) : content fs1 q = content fs2 q := by
  unfold content
  rw [h]

theorem lookup_create_directories_other (fs : FS Path) (p q : Path) (now : Int) (h : p ≠ q) :
    lookup (create_directories fs p now) q = lookup fs q := by
  unfold create_directories
  cases hl : lookup fs p with
  | none => simp [lookup_set, h]
  | some n => by_cases ht : n.type = FileType.not_found <;> simp [ht, lookup_set, h]

theorem content_create_directories (fs : FS Path) (p q : Path) (now : Int)
    (hp : path_exists fs p = false) :
    content (create_directories fs p now) q = content fs q := by
  by_cases h : p = q
  · subst h
    unfold path_exists at hp
    unfold create_directories content
    cases hl : lookup fs p with
    | none => simp [lookup_set]
    | some n =>
      simp [hl] at hp
      simp [hp, lookup_set]
  · exact content_other_of_lookup (lookup_create_directories_other fs p q now h)

theorem lookup_create_directories_self (fs : FS Path) (p : Path) (now : Int)
    (hp : path_exists fs p = false) :
    ∃ n, lookup (create_directories fs p now) p = some n ∧ n.type = FileType.directory := by
  unfold path_exists at hp
  unfold create_directories
  cases hl : lookup fs p with
  | none => simp [lookup_set]
  | some n =>
    simp [hl] at hp
    simp [hp, lookup_set]

theorem open_append_some {fs fs1 : FS Path} {p : Path} {now : Int}
    (h : open_append fs p now = some fs1) :
    (∀ q, q ≠ p → lookup fs1 q = lookup fs q) ∧
      ∃ n, lookup fs1 p = some n ∧ n.type = FileType.regular ∧
        n.content = (content fs p).getD "" := by
  unfold open_append at h
  cases hl : lookup fs p with
  | none =>
    simp [hl] at h
    subst h
    refine ⟨fun q hq => ?_, ?_⟩
    · have : ¬ p = q := fun e => hq e.symm
      simp [lookup_set, this]
    · simp [lookup_set, content, hl]
  | some n =>
    simp only [hl] at h
    cases ht : n.type with
    | regular =>
      simp [ht] at h
      subst h
      exact ⟨fun _ _ => rfl, n, hl, ht, by simp [content, hl, ht]⟩
    | not_found =>
      simp [ht] at h
      subst h
      refine ⟨fun q hq => ?_, ?_⟩
      · have : ¬ p = q := fun e => hq e.symm
        simp [lookup_set, this]
      · simp [lookup_set, content, hl, ht]
    | directory => simp [ht] at h
    | other => simp [ht] at h

theorem content_of_lookup_regular {fs : FS Path} {p : Path} {n : Node}
    (h : lookup fs p = some n) (ht : n.type = FileType.regular) :
    content fs p = some n.content := by
  simp [content, h, ht]

theorem is_regular_file_iff {fs : FS Path} {p : Path} :
    is_regular_file fs p = true ↔ ∃ n, lookup fs p = some n ∧ n.type = FileType.regular := by
  unfold is_regular_file
  cases hl : lookup fs p with
  | none => simp
  | some n => simp

theorem kind_append (fs : FS Path) (p q : Path) (data : String) (now : Int) :
    (lookup (append fs p data now) q).map (fun n => n.type) =
      (lookup fs q).map (fun n => n.type) := by
  rw [lookup_append]
  by_cases h : p = q
  · subst h
    cases hl : lookup fs p <;> simp
  · simp [h]

theorem path_exists_congr {fs1 fs2 : FS Path} {q : Path}
    (h : (lookup fs1 q).map (fun n => n.type) = (lookup fs2 q).map (fun n => n.type)) :
    path_exists fs1 q = path_exists fs2 q := by
  unfold path_exists
  cases h1 : lookup fs1 q <;> cases h2 : lookup fs2 q <;> simp [h1, h2] at h ⊢
  rw [h]

theorem open_append_isSome_congr {fs1 fs2 : FS Path} {q : Path} {now : Int}
    (h : (lookup fs1 q).map (fun n => n.type) = (lookup fs2 q).map (fun n => n.type)) :
    (open_append fs1 q now).isSome = (open_append fs2 q now).isSome := by
  unfold open_append
  cases h1 : lookup fs1 q with
  | none =>
    cases h2 : lookup fs2 q with
    | none => simp
    | some m => simp [h1, h2] at h
  | some n =>
    cases h2 : lookup fs2 q with
    | none => simp [h1, h2] at h
    | some m =>
      simp only [h1, h2, Option.map_some', Option.some.injEq] at h
      simp only [h]
      cases m.type <;> simp

theorem kind_create_directories_congr {fs1 fs2 : FS Path} (p : Path) (now : Int)
    (h : ∀ q, (lookup fs1 q).map (fun n => n.type) = (lookup fs2 q).map (fun n => n.type))
    (q : Path) :
    (lookup (create_directories fs1 p now) q).map (fun n => n.type) =
      (lookup (create_directories fs2 p now) q).map (fun n => n.type) := by
  by_cases hq : p = q
  · subst hq
    have hp := h p
    unfold create_directories
    cases h1 : lookup fs1 p with
    | none =>
      cases h2 : lookup fs2 p with
      | none => simp [lookup_set]
      | some m => simp [h1, h2] at hp
    | some n =>
      cases h2 : lookup fs2 p with
      | none => simp [h1, h2] at hp
      | some m =>
        simp only [h1, h2, Option.map_some', Option.some.injEq] at hp
        by_cases ht : m.type = FileType.not_found
        · simp [hp, ht, lookup_set]
        · simp [hp, ht, h1, h2]
  · rw [lookup_create_directories_other _ _ _ _ hq, lookup_create_directories_other _ _ _ _ hq]
    exact h q

end FS

end fu

/-! ## Facts about opening and writing -/

namespace fu

section Facts

variable {Path : Type} [DecidableEq Path]

theorem get_file_path_congr (P : Platform Path) {t s : State Path} (h : SameConfig t s) :
    detail.get_file_path P t = detail.get_file_path P s := by
  obtain ⟨hd, ha, hl, _⟩ := h
  simp [detail.get_file_path, detail.resolve_dir, detail.resolve_app_name,
    detail.resolve_log_name, hd, ha, hl]

/-! ### Writing through an open file -/

theorem write_out_cases (P : Platform Path) (h : Handle Path) (data : String) (now : Int)
    (fs : FS Path) :
    write_out P h data now fs = fs ∨
      write_out P h data now fs = FS.append fs (P.canonical h.path) data now := by
  unfold write_out
  by_cases hc : (h.unlinked || decide (data = "")) = true
  · left
    rw [if_pos hc]
  · right
    rw [if_neg hc]

theorem write_out_empty (P : Platform Path) (h : Handle Path) (now : Int) (fs : FS Path) :
    write_out P h "" now fs = fs := by
  simp [write_out]

theorem kind_write_out (P : Platform Path) (h : Handle Path) (data : String) (now : Int)
    (fs : FS Path) (q : Path) :
    (FS.lookup (write_out P h data now fs) q).map (fun n => n.type) =
      (FS.lookup fs q).map (fun n => n.type) := by
  rcases write_out_cases P h data now fs with hw | hw
  · rw [hw]
  · rw [hw, FS.kind_append]

theorem is_regular_file_congr {fs1 fs2 : FS Path} {q : Path}
    (h : (FS.lookup fs1 q).map (fun n => n.type) = (FS.lookup fs2 q).map (fun n => n.type)) :
    FS.is_regular_file fs1 q = FS.is_regular_file fs2 q := by
  unfold FS.is_regular_file
  cases h1 : FS.lookup fs1 q <;> cases h2 : FS.lookup fs2 q <;> simp [h1, h2] at h ⊢
  rw [h]

theorem content_write_out_other (P : Platform Path) (h : Handle Path) (data : String) (now : Int)
    (fs : FS Path) (q : Path) (hq : q ≠ P.canonical h.path) :
    FS.content (write_out P h data now fs) q = FS.content fs q := by
  rcases write_out_cases P h data now fs with hw | hw
  · rw [hw]
  · rw [hw]
    have : ¬ P.canonical h.path = q := fun e => hq e.symm
    exact FS.content_other_of_lookup (by simp [FS.lookup_append, this])

theorem content_write_out_self (P : Platform Path) (h : Handle Path) (data : String) (now : Int)
    (fs : FS Path) (n : Node) (hu : h.unlinked = false)
    (hn : FS.lookup fs (P.canonical h.path) = some n) (ht : n.type = FileType.regular) :
    FS.content (write_out P h data now fs) (P.canonical h.path) = some (n.content ++ data) := by
  unfold write_out
  by_cases hd : data = ""
  · subst hd
    simp [hu, FS.content, hn, ht]
  · simp [hu, hd, FS.content, FS.lookup_append, hn, ht]

theorem open_fails_congr (P : Platform Path) (env : Env Path) {fs1 fs2 : FS Path} (path : Path)
    (h : ∀ q, (FS.lookup fs1 q).map (fun n => n.type) = (FS.lookup fs2 q).map (fun n => n.type)) :
    open_fails P env fs1 path = open_fails P env fs2 path := by
  unfold open_fails fs_exists
  rw [FS.path_exists_congr (h (P.canonical (P.parent_path path))),
    FS.open_append_isSome_congr (h (P.canonical path)),
    FS.open_append_isSome_congr
      (FS.kind_create_directories_congr (P.canonical (P.parent_path path)) env.now h
        (P.canonical path))]

/-! ### `open_file` on a closed stream -/

theorem open_file_fails (P : Platform Path) (env : Env Path) (s : State Path)
    (hc : s.file.handle = none)
    (hf : open_fails P env s.fs (detail.get_file_path P s) = true) :
    (detail.open_file P env s).error ≠ none ∧
      (detail.open_file P env s).state.file.handle = none ∧
      SameConfig (detail.open_file P env s).state s ∧
      (detail.open_file P env s).state.opens = s.opens ∧
      ((detail.open_file P env s).state.file.failed = false →
        (detail.open_file P env s).state.file = s.file) ∧
      ∀ q, FS.content (detail.open_file P env s).state.fs q = FS.content s.fs q := by
  unfold open_fails at hf
  unfold detail.open_file
  by_cases hst : env.status_ok = true
  swap
  · simp [hst, SameConfig, hc]
  simp only [hst, Bool.not_true, Bool.false_eq_true, if_false] at hf
  simp only [hst, Bool.not_true, Bool.false_eq_true, if_false]
  by_cases hp : fs_exists P s.fs (P.parent_path (detail.get_file_path P s)) = true
  · simp only [hp, Bool.not_true] at hf
    simp only [hp, Bool.not_true, Bool.false_eq_true, if_false]
    have hnone : (if env.open_ok = true then
        FS.open_append s.fs (P.canonical (detail.get_file_path P s)) env.now else none) = none := by
      by_cases ho : env.open_ok = true
      · simp [ho] at hf
        simp [ho, hf]
      · simp [ho]
    simp [ofstream_open, hc, hnone, is_open, SameConfig]
  · simp only [Bool.not_eq_true] at hp
    simp only [hp, Bool.not_false, if_true] at hf
    simp only [hp, Bool.not_false, if_true]
    by_cases hm : env.create_directories_ok = true
    · have hnone : (if env.open_ok = true then
          FS.open_append (FS.create_directories s.fs
            (P.canonical (P.parent_path (detail.get_file_path P s))) env.now)
            (P.canonical (detail.get_file_path P s)) env.now else none) = none := by
        by_cases ho : env.open_ok = true
        · simp [hm, ho] at hf
          simp [ho, hf]
        · simp [ho]
      simp [fs_create_directories, hm, ofstream_open, hc, hnone, is_open, SameConfig,
        FS.content_create_directories _ _ _ _ hp]
    · simp [fs_create_directories, hm, hc, SameConfig]

theorem open_file_succeeds (P : Platform Path) (env : Env Path) (s : State Path)
    (hc : s.file.handle = none)
    (hf : open_fails P env s.fs (detail.get_file_path P s) = false) :
    (detail.open_file P env s).error = none ∧
      (detail.open_file P env s).state.file =
        ⟨some ⟨detail.get_file_path P s, s.opens, false⟩, false, ""⟩ ∧
      SameConfig (detail.open_file P env s).state s ∧
      (detail.open_file P env s).state.opens = s.opens + 1 ∧
      (∀ q, q ≠ P.canonical (detail.get_file_path P s) →
        FS.content (detail.open_file P env s).state.fs q = FS.content s.fs q) ∧
      ∃ n, FS.lookup (detail.open_file P env s).state.fs
          (P.canonical (detail.get_file_path P s)) = some n ∧
        n.type = FileType.regular ∧
        n.content = (FS.content s.fs (P.canonical (detail.get_file_path P s))).getD "" := by
  unfold open_fails at hf
  have hst : env.status_ok = true := by
    by_cases hst : env.status_ok = true
    · exact hst
    · simp [hst] at hf
  simp only [hst, Bool.not_true, Bool.false_eq_true, if_false] at hf
  by_cases hp : fs_exists P s.fs (P.parent_path (detail.get_file_path P s)) = true
  · simp only [hp, Bool.not_true, Bool.false_eq_true, if_false] at hf
    have ho : env.open_ok = true := by
      by_cases ho : env.open_ok = true
      · exact ho
      · simp [ho] at hf
    have hsome : (FS.open_append s.fs (P.canonical (detail.get_file_path P s))
        env.now).isSome = true := by
      simpa [ho] using hf
    obtain ⟨fs1, hfs1⟩ := Option.isSome_iff_exists.mp hsome
    obtain ⟨hother, n, hn, hty, hcont⟩ := FS.open_append_some hfs1
    have hval : detail.open_file P env s =
        ⟨{ s with fs := fs1,
                  file := ⟨some ⟨detail.get_file_path P s, s.opens, false⟩, false, ""⟩,
                  opens := s.opens + 1,
                  trace := s.trace ++ [Event.opened (detail.get_file_path P s) true] }, none⟩ := by
      simp [detail.open_file, hst, hp, ofstream_open, hc, ho, hfs1, is_open]
    rw [hval]
    refine ⟨rfl, rfl, ⟨rfl, rfl, rfl, rfl⟩, rfl, ?_, n, hn, hty, hcont⟩
    intro q hq
    exact FS.content_other_of_lookup (hother q hq)
  · simp only [Bool.not_eq_true] at hp
    simp only [hp, Bool.not_false, if_true] at hf
    have hm : env.create_directories_ok = true := by
      by_cases hm : env.create_directories_ok = true
      · exact hm
      · simp [hm] at hf
    have ho : env.open_ok = true := by
      by_cases ho : env.open_ok = true
      · exact ho
      · simp [ho] at hf
    have hsome : (FS.open_append
        (FS.create_directories s.fs (P.canonical (P.parent_path (detail.get_file_path P s)))
          env.now)
        (P.canonical (detail.get_file_path P s)) env.now).isSome = true := by
      simpa [hm, ho] using hf
    obtain ⟨fs1, hfs1⟩ := Option.isSome_iff_exists.mp hsome
    obtain ⟨hother, n, hn, hty, hcont⟩ := FS.open_append_some hfs1
    have hval : detail.open_file P env s =
        ⟨{ s with fs := fs1,
                  file := ⟨some ⟨detail.get_file_path P s, s.opens, false⟩, false, ""⟩,
                  opens := s.opens + 1,
                  trace := (s.trace ++
                    [Event.create_directories (P.parent_path (detail.get_file_path P s))]) ++
                    [Event.opened (detail.get_file_path P s) true] }, none⟩ := by
      simp [detail.open_file, hst, hp, fs_create_directories, hm, ofstream_open, hc, ho, hfs1,
        is_open]
    rw [hval]
    refine ⟨rfl, rfl, ⟨rfl, rfl, rfl, rfl⟩, rfl, ?_, n, hn, hty, ?_⟩
    · intro q hq
      show FS.content fs1 q = FS.content s.fs q
      rw [FS.content_other_of_lookup (hother q hq)]
      exact FS.content_create_directories _ _ _ _ hp
    · rw [hcont, FS.content_create_directories _ _ _ _ hp]

/-! ### Insertion and flush -/

theorem write_keeps (P : Platform Path) (env : Env Path) (line : String) (s : State Path) :
    (ofstream_flush P env (ofstream_insert P env line s)).file.handle = s.file.handle ∧
      SameConfig (ofstream_flush P env (ofstream_insert P env line s)) s ∧
      (ofstream_flush P env (ofstream_insert P env line s)).opens = s.opens := by
  unfold ofstream_flush ofstream_insert SameConfig
  cases hh : s.file.handle with
  | none => simp
  | some h =>
    by_cases hf : s.file.failed = true
    · simp [hf, hh]
    · by_cases hw : env.write_ok = true
      · by_cases hfl : env.flush_ok = true <;> simp [hf, hw, hh, hfl]
      · simp [hf, hw, hh]

theorem write_failed (P : Platform Path) (env : Env Path) (line : String) (s : State Path)
    (ho : s.file.handle ≠ none) (h : env.write_ok = false ∨ env.flush_ok = false) :
    (ofstream_flush P env (ofstream_insert P env line s)).file.failed = true := by
  unfold ofstream_flush ofstream_insert
  cases hh : s.file.handle with
  | none => exact absurd hh ho
  | some hd =>
    by_cases hf : s.file.failed = true
    · simp [hf, hh]
    · by_cases hw : env.write_ok = true
      · rcases h with h | h
        · simp [h] at hw
        · simp [hf, hw, h]
      · simp [hf, hw]

theorem write_good (P : Platform Path) (env : Env Path) (line : String) (s : State Path)
    (h : Handle Path) (hh : s.file.handle = some h)
    (hgood : (ofstream_flush P env (ofstream_insert P env line s)).file.failed = false) :
    s.file.failed = false ∧
      (ofstream_flush P env (ofstream_insert P env line s)).fs =
        write_out P h (s.file.pending ++ line) env.now s.fs ∧
      (ofstream_flush P env (ofstream_insert P env line s)).file.pending = "" := by
  have hne : s.file.handle ≠ none := by
    rw [hh]
    exact Option.some_ne_none h
  have hw : env.write_ok = true := by
    by_cases hw : env.write_ok = true
    · exact hw
    · rw [write_failed P env line s hne (Or.inl (by simpa using hw))] at hgood
      cases hgood
  have hfl : env.flush_ok = true := by
    by_cases hfl : env.flush_ok = true
    · exact hfl
    · rw [write_failed P env line s hne (Or.inr (by simpa using hfl))] at hgood
      cases hgood
  have hf : s.file.failed = false := by
    by_cases hf : s.file.failed = true
    · simp [ofstream_flush, ofstream_insert, hh, hf] at hgood
    · simpa using hf
  refine ⟨hf, ?_, ?_⟩ <;> simp [ofstream_flush, ofstream_insert, hh, hf, hw, hfl]

theorem write_pending (P : Platform Path) (env : Env Path) (line : String) (s : State Path)
    (hgood : (ofstream_flush P env (ofstream_insert P env line s)).file.failed = false) :
    (ofstream_flush P env (ofstream_insert P env line s)).file.pending = "" := by
  cases hh : s.file.handle with
  | none => simp [ofstream_flush, ofstream_insert, hh] at hgood
  | some h => exact (write_good P env line s h hh hgood).2.2

theorem write_kind (P : Platform Path) (env : Env Path) (line : String) (s : State Path)
    (q : Path) :
    (FS.lookup (ofstream_flush P env (ofstream_insert P env line s)).fs q).map (fun n => n.type) =
      (FS.lookup s.fs q).map (fun n => n.type) := by
  unfold ofstream_flush ofstream_insert
  cases hh : s.file.handle with
  | none => simp
  | some h =>
    by_cases hf : s.file.failed = true
    · simp [hf, hh]
    · by_cases hw : env.write_ok = true
      · by_cases hfl : env.flush_ok = true <;> simp [hf, hw, hh, hfl, kind_write_out]
      · simp [hf, hw, hh, kind_write_out]

theorem write_line (P : Platform Path) (env : Env Path) (line : String) (s : State Path)
    (h : Handle Path) (n : Node) (hh : s.file.handle = some h) (hu : h.unlinked = false)
    (hp : s.file.pending = "")
    (hn : FS.lookup s.fs (P.canonical h.path) = some n) (ht : n.type = FileType.regular)
    (hgood : (ofstream_flush P env (ofstream_insert P env line s)).file.failed = false) :
    FS.content (ofstream_flush P env (ofstream_insert P env line s)).fs (P.canonical h.path) =
        some (n.content ++ line) ∧
      ∀ q, q ≠ P.canonical h.path →
        FS.content (ofstream_flush P env (ofstream_insert P env line s)).fs q =
          FS.content s.fs q := by
  obtain ⟨_, hfs, _⟩ := write_good P env line s h hh hgood
  rw [hfs, hp, String.empty_append]
  exact ⟨content_write_out_self P h line env.now s.fs n hu hn ht,
    fun q hq => content_write_out_other P h line env.now s.fs q hq⟩

theorem log_of_vformat (P : Platform Path) (env : Env Path) (msg : String) (s : State Path)
    (ts : String)
    (hv : P.vformat (detail.resolve_timestamp_format s) (Int.tdiv env.now P.ticks_per_second) =
      some ts) :
    log P env msg s =
      match (detail.open_file_if_it_is_not_already_open P env s).error with
      | some e => ⟨(detail.open_file_if_it_is_not_already_open P env s).state, some e⟩
      | none =>
        ⟨ofstream_flush P env (ofstream_insert P env (format_line ts msg)
          (detail.open_file_if_it_is_not_already_open P env s).state), none⟩ := by
  simp [log, hv]

/-- The effect of a `log` call that went through, on a state whose open file is
still at the resolved path. -/
theorem log_appends (P : Platform Path) (env : Env Path) (msg : String) (s : State Path)
    (hatt : Attached P s) (hlinked : ∀ h, s.file.handle = some h → h.unlinked = false)
    (herr : (log P env msg s).error = none)
    (hgood : (log P env msg s).state.file.failed = false) :
    ∃ ts, P.vformat (detail.resolve_timestamp_format s)
        (Int.tdiv env.now P.ticks_per_second) = some ts ∧
      FS.content (log P env msg s).state.fs (P.canonical (detail.get_file_path P s)) =
        some ((FS.content s.fs (P.canonical (detail.get_file_path P s))).getD "" ++
          format_line ts msg) ∧
      ∀ q, q ≠ P.canonical (detail.get_file_path P s) →
        FS.content (log P env msg s).state.fs q = FS.content s.fs q := by
  cases hv : P.vformat (detail.resolve_timestamp_format s)
      (Int.tdiv env.now P.ticks_per_second) with
  | none => simp [log, hv] at herr
  | some ts =>
    refine ⟨ts, rfl, ?_⟩
    rw [log_of_vformat P env msg s ts hv] at herr hgood ⊢
    cases hh : s.file.handle with
    | some h =>
      have hopen : detail.open_file_if_it_is_not_already_open P env s = ⟨s, none⟩ := by
        simp [detail.open_file_if_it_is_not_already_open, is_open, hh]
      rw [hopen] at hgood ⊢
      simp only at hgood ⊢
      obtain ⟨hpath, hreg⟩ := hatt.1 h hh
      obtain ⟨n, hn, ht⟩ := FS.is_regular_file_iff.mp (hreg (hlinked h hh))
      have hf := (write_good P env (format_line ts msg) s h hh hgood).1
      have hw := write_line P env (format_line ts msg) s h n hh (hlinked h hh) (hatt.2 hf)
        hn ht hgood
      rw [hpath] at hw hn
      rw [FS.content_of_lookup_regular hn ht]
      exact hw
    | none =>
      have hopen : detail.open_file_if_it_is_not_already_open P env s =
          detail.open_file P env s := by
        simp [detail.open_file_if_it_is_not_already_open, is_open, hh]
      rw [hopen] at herr hgood ⊢
      by_cases hf : open_fails P env s.fs (detail.get_file_path P s) = true
      · have hne := (open_file_fails P env s hh hf).1
        cases he : (detail.open_file P env s).error with
        | none => exact absurd he hne
        | some e => simp [he] at herr
      · simp only [Bool.not_eq_true] at hf
        obtain ⟨he, hfile, _, _, hother, n, hn, ht, hcont⟩ := open_file_succeeds P env s hh hf
        simp only [he] at hgood ⊢
        have hh1 : (detail.open_file P env s).state.file.handle =
            some ⟨detail.get_file_path P s, s.opens, false⟩ := by rw [hfile]
        have hp1 : (detail.open_file P env s).state.file.pending = "" := by rw [hfile]
        have hw := write_line P env (format_line ts msg) (detail.open_file P env s).state
          ⟨detail.get_file_path P s, s.opens, false⟩ n hh1 rfl hp1 hn ht hgood
        simp only at hw
        refine ⟨?_, fun q hq => ?_⟩
        · rw [hw.1, hcont]
        · rw [hw.2 q hq, hother q hq]

/-! ### The open file stays at the resolved path -/

theorem attached_of_closed (P : Platform Path) (s : State Path) (h : s.file.handle = none)
    (hp : s.file.failed = false → s.file.pending = "") : Attached P s := by
  refine ⟨?_, hp⟩
  intro hd hh
  rw [h] at hh
  cases hh

theorem open_file_attached (P : Platform Path) (env : Env Path) (s : State Path)
    (hc : s.file.handle = none) (hp : s.file.failed = false → s.file.pending = "") :
    Attached P (detail.open_file P env s).state := by
  by_cases hf : open_fails P env s.fs (detail.get_file_path P s) = true
  · obtain ⟨_, hh, _, _, hfile, _⟩ := open_file_fails P env s hc hf
    refine attached_of_closed P _ hh ?_
    intro hg
    rw [hfile hg]
    rw [hfile hg] at hg
    exact hp hg
  · simp only [Bool.not_eq_true] at hf
    obtain ⟨_, hfile, hcfg, _, _, n, hn, ht, _⟩ := open_file_succeeds P env s hc hf
    refine ⟨?_, fun _ => by rw [hfile]⟩
    intro hd hh
    rw [hfile] at hh
    simp only [Option.some.injEq] at hh
    subst hh
    refine ⟨(get_file_path_congr P hcfg).symm, fun _ => ?_⟩
    exact FS.is_regular_file_iff.mpr ⟨n, hn, ht⟩

theorem close_facts (P : Platform Path) (env : Env Path) (t : State Path) :
    (ofstream_close P env t).file.handle = none ∧
      SameConfig (ofstream_close P env t) t ∧ (ofstream_close P env t).opens = t.opens ∧
      (t.file.handle ≠ none → (ofstream_close P env t).file.pending = "") ∧
      (∀ q, (FS.lookup (ofstream_close P env t).fs q).map (fun n => n.type) =
        (FS.lookup t.fs q).map (fun n => n.type)) ∧
      (∀ h, t.file.handle = some h → ∀ q, q ≠ P.canonical h.path →
        FS.content (ofstream_close P env t).fs q = FS.content t.fs q) ∧
      (t.file.pending = "" → (ofstream_close P env t).fs = t.fs) := by
  unfold ofstream_close
  cases hh : t.file.handle with
  | none =>
    refine ⟨rfl, ⟨rfl, rfl, rfl, rfl⟩, rfl, fun h => absurd rfl h, fun _ => rfl, ?_, fun _ => rfl⟩
    intro h hh2
    cases hh2
  | some h =>
    refine ⟨rfl, ⟨rfl, rfl, rfl, rfl⟩, rfl, fun _ => rfl, ?_, ?_, ?_⟩
    · intro q
      exact kind_write_out P h _ env.now t.fs q
    · intro h2 hh2 q hq
      simp only [Option.some.injEq] at hh2
      subst hh2
      exact content_write_out_other P h _ env.now t.fs q hq
    · intro hp
      simp only [hp]
      by_cases hc : env.close_ok = true
      · simp [hc, write_out_empty]
      · simp [hc, short_write, write_out_empty]

theorem reopen_of_open (P : Platform Path) (env : Env Path) (t : State Path)
    (ho : t.file.handle ≠ none) :
    detail.reopen_file_if_it_is_already_open P env t =
      detail.open_file P env (ofstream_close P env t) := by
  unfold detail.reopen_file_if_it_is_already_open is_open
  cases hh : t.file.handle with
  | none => exact absurd hh ho
  | some h => simp

theorem reopen_closed (P : Platform Path) (env : Env Path) (s : State Path)
    (hc : s.file.handle = none) :
    detail.reopen_file_if_it_is_already_open P env s = ⟨s, none⟩ := by
  simp [detail.reopen_file_if_it_is_already_open, is_open, hc]

theorem reopen_attached (P : Platform Path) (env : Env Path) (s : State Path)
    (hp : s.file.failed = false → s.file.pending = "") :
    Attached P (detail.reopen_file_if_it_is_already_open P env s).state := by
  cases hh : s.file.handle with
  | none =>
    rw [reopen_closed P env s hh]
    exact attached_of_closed P s hh hp
  | some h =>
    have ho : s.file.handle ≠ none := by
      rw [hh]
      exact Option.some_ne_none h
    rw [reopen_of_open P env s ho]
    obtain ⟨hc, _, _, hpend, _⟩ := close_facts P env s
    exact open_file_attached P env _ hc (fun _ => hpend ho)

theorem write_attached (P : Platform Path) (env : Env Path) (line : String) (s : State Path)
    (ha : Attached P s) : Attached P (ofstream_flush P env (ofstream_insert P env line s)) := by
  obtain ⟨hh, hcfg, _⟩ := write_keeps P env line s
  refine ⟨?_, write_pending P env line s⟩
  intro hd hhd
  rw [hh] at hhd
  obtain ⟨hp, hr⟩ := ha.1 hd hhd
  refine ⟨by rw [hp, get_file_path_congr P hcfg], fun hu => ?_⟩
  rw [is_regular_file_congr (write_kind P env line s (P.canonical hd.path))]
  exact hr hu

theorem log_attached (P : Platform Path) (env : Env Path) (msg : String) (s : State Path)
    (ha : Attached P s) : Attached P (log P env msg s).state := by
  cases hv : P.vformat (detail.resolve_timestamp_format s)
      (Int.tdiv env.now P.ticks_per_second) with
  | none =>
    have : log P env msg s = ⟨s, some Error.format_error⟩ := by simp [log, hv]
    rw [this]
    exact ha
  | some ts =>
    rw [log_of_vformat P env msg s ts hv]
    have hopen : Attached P (detail.open_file_if_it_is_not_already_open P env s).state := by
      unfold detail.open_file_if_it_is_not_already_open
      cases hh : s.file.handle with
      | none =>
        simp only [is_open, hh, Option.isSome_none, Bool.not_false, if_true]
        exact open_file_attached P env s hh ha.2
      | some h =>
        simp only [is_open, hh, Option.isSome_some, Bool.not_true, Bool.false_eq_true, if_false]
        exact ha
    cases he : (detail.open_file_if_it_is_not_already_open P env s).error with
    | some e => exact hopen
    | none => exact write_attached P env _ _ hopen

theorem fs_remove_attached (P : Platform Path) (env : Env Path) (p : Path) (s : State Path)
    (ha : Attached P s) : Attached P (fs_remove P env p s).state := by
  unfold fs_remove
  by_cases hr : env.remove_ok p = true
  · simp only [hr, if_true]
    refine ⟨?_, ha.2⟩
    intro hd hhd
    cases hh : s.file.handle with
    | none => simp [hh] at hhd
    | some h =>
      obtain ⟨hp, hreg⟩ := ha.1 h hh
      simp only [hh, Option.map_some', Option.some.injEq] at hhd
      by_cases hq : P.canonical h.path = P.canonical p
      · simp only [hq, if_true] at hhd
        subst hhd
        exact ⟨hp, fun hu => by cases hu⟩
      · simp only [hq, if_false] at hhd
        subst hhd
        refine ⟨hp, fun hu => ?_⟩
        have h1 := hreg hu
        unfold FS.is_regular_file at h1 ⊢
        have : ¬ P.canonical p = P.canonical h.path := fun e => hq e.symm
        simpa [FS.lookup_erase, this] using h1
  · simp only [hr, Bool.false_eq_true, if_false]
    exact ha

theorem delete_old_files_loop_attached (P : Platform Path) (env : Env Path) (now older_than : Int)
    (entries : List Path) (s : State Path) (ha : Attached P s) :
    Attached P (detail.delete_old_files_loop P env now older_than entries s).state := by
  induction entries generalizing s with
  | nil => exact ha
  | cons entry rest ih =>
    unfold detail.delete_old_files_loop
    by_cases hreg : FS.is_regular_file s.fs (P.canonical entry) = true
    · simp only [hreg, if_true]
      by_cases hage : now - detail.file_time_to_system_time
          (FS.last_write_time s.fs (P.canonical entry)) > detail.hours P 48
      · simp only [hage, if_true]
        cases he : (fs_remove P env entry s).error with
        | some e => exact fs_remove_attached P env entry s ha
        | none => exact ih _ (fs_remove_attached P env entry s ha)
      · simp only [hage, if_false]
        exact ih s ha
    · simp only [hreg, Bool.false_eq_true, if_false]
      exact ih s ha

theorem reachable_attached (P : Platform Path) (s : State Path) (h : Reachable P s) :
    Attached P s := by
  induction h with
  | init fs => exact attached_of_closed P _ rfl (fun _ => rfl)
  | set_dir env path s _ ih =>
    unfold set_dir
    by_cases he : path = s.dir
    · simpa [he] using ih
    · simp only [he, if_false]
      exact reopen_attached P env _ ih.2
  | set_application_name env name s _ ih =>
    unfold set_application_name
    by_cases he : name = s.app_name
    · simpa [he] using ih
    · simp only [he, if_false]
      exact reopen_attached P env _ ih.2
  | set_log_name env name s _ ih =>
    unfold set_log_name
    by_cases he : name = s.log_name
    · simpa [he] using ih
    · simp only [he, if_false]
      exact reopen_attached P env _ ih.2
  | set_timestamp_format env format s _ ih =>
    refine ⟨?_, ih.2⟩
    intro hd hhd
    obtain ⟨hp, hr⟩ := ih.1 hd hhd
    exact ⟨hp, hr⟩
  | log env msg s _ ih => exact log_attached P env msg s ih
  | log_loc env msg loc s _ ih => exact log_attached P env _ s ih
  | delete_old_files env older_than s _ ih =>
    unfold delete_old_files detail.delete_old_files
    simp only
    split
    · exact ih
    · split
      · exact ih
      · split
        · exact ih
        · exact delete_old_files_loop_attached P env _ _ _ s ih

/-! ### Reopening, and a refused open -/

theorem next_log_opens (P : Platform Path) (s : State Path) (hc : s.file.handle = none) :
    NextLogOpens P s := by
  intro env msg ts hv hf
  rw [log_of_vformat P env msg s ts hv]
  have hopen : detail.open_file_if_it_is_not_already_open P env s = detail.open_file P env s := by
    simp [detail.open_file_if_it_is_not_already_open, is_open, hc]
  obtain ⟨he, hfile, _⟩ := open_file_succeeds P env s hc hf
  rw [hopen]
  simp only [he]
  refine ⟨trivial, ?_⟩
  rw [(write_keeps P env (format_line ts msg) (detail.open_file P env s).state).1, hfile]

theorem open_file_same_config (P : Platform Path) (env : Env Path) (s : State Path)
    (hc : s.file.handle = none) : SameConfig (detail.open_file P env s).state s := by
  by_cases hf : open_fails P env s.fs (detail.get_file_path P s) = true
  · exact (open_file_fails P env s hc hf).2.2.1
  · simp only [Bool.not_eq_true] at hf
    exact (open_file_succeeds P env s hc hf).2.2.1

theorem reopen_same_config (P : Platform Path) (env : Env Path) (t : State Path) :
    SameConfig (detail.reopen_file_if_it_is_already_open P env t).state t := by
  cases hh : t.file.handle with
  | none =>
    rw [reopen_closed P env t hh]
    exact ⟨rfl, rfl, rfl, rfl⟩
  | some h =>
    have ho : t.file.handle ≠ none := by
      rw [hh]
      exact Option.some_ne_none h
    rw [reopen_of_open P env t ho]
    obtain ⟨hc, ⟨g1, g2, g3, g4⟩, _⟩ := close_facts P env t
    obtain ⟨h1, h2, h3, h4⟩ := open_file_same_config P env _ hc
    exact ⟨h1.trans g1, h2.trans g2, h3.trans g3, h4.trans g4⟩

theorem reopen_fails (P : Platform Path) (env : Env Path) (t : State Path)
    (ho : t.file.handle ≠ none)
    (hf : open_fails P env t.fs (detail.get_file_path P t) = true) :
    FailedReopen P t (detail.reopen_file_if_it_is_already_open P env t) := by
  obtain ⟨hc, hcfg, _, _, hkind, hother, hsame⟩ := close_facts P env t
  rw [reopen_of_open P env t ho]
  have hf2 : open_fails P env (ofstream_close P env t).fs
      (detail.get_file_path P (ofstream_close P env t)) = true := by
    rw [get_file_path_congr P hcfg, open_fails_congr P env _ hkind]
    exact hf
  obtain ⟨he, hh, _, _, _, hcont⟩ := open_file_fails P env _ hc hf2
  refine ⟨he, hh, next_log_opens P _ hh, ?_, ?_⟩
  · intro h hh2 q hq
    rw [hcont q, hother h hh2 q hq]
  · intro hp q
    rw [hcont q, hsame hp]

theorem reopen_succeeds (P : Platform Path) (env : Env Path) (t : State Path) (old : Path)
    (ho : t.file.handle ≠ none)
    (hf : open_fails P env t.fs (detail.get_file_path P t) = false) :
    ReopenedAt P old (detail.get_file_path P t)
      (detail.reopen_file_if_it_is_already_open P env t) := by
  obtain ⟨hc, hcfg, _, hpend, hkind, _, _⟩ := close_facts P env t
  have hatt := open_file_attached P env (ofstream_close P env t) hc (fun _ => hpend ho)
  rw [reopen_of_open P env t ho]
  have hpath := get_file_path_congr P hcfg
  have hf2 : open_fails P env (ofstream_close P env t).fs
      (detail.get_file_path P (ofstream_close P env t)) = false := by
    rw [hpath, open_fails_congr P env _ hkind]
    exact hf
  obtain ⟨he, hfile, hcfg2, _, _, _⟩ := open_file_succeeds P env _ hc hf2
  have hpath2 := get_file_path_congr P hcfg2
  refine ⟨he, ⟨_, by rw [hfile], hpath⟩, by rw [hpath2, hpath], ?_⟩
  intro env2 msg herr hgood
  have hlinked : ∀ h,
      (detail.open_file P env (ofstream_close P env t)).state.file.handle = some h →
        h.unlinked = false := by
    intro h hh
    rw [hfile] at hh
    simp only [Option.some.injEq] at hh
    rw [← hh]
  obtain ⟨ts, hv, hc1, hc2⟩ := log_appends P env2 msg _ hatt hlinked herr hgood
  rw [hpath2, hpath] at hc1 hc2
  exact ⟨ts, hv, hc1, fun hne => hc2 (P.canonical old) hne⟩

theorem log_open_fails (P : Platform Path) (env : Env Path) (msg : String) (s : State Path)
    (hc : s.file.handle = none)
    (hf : open_fails P env s.fs (detail.get_file_path P s) = true) :
    FailedClosed P s (log P env msg s) := by
  cases hv : P.vformat (detail.resolve_timestamp_format s)
      (Int.tdiv env.now P.ticks_per_second) with
  | none =>
    have : log P env msg s = ⟨s, some Error.format_error⟩ := by simp [log, hv]
    rw [this]
    exact ⟨by simp, hc, fun _ => rfl, next_log_opens P s hc⟩
  | some ts =>
    rw [log_of_vformat P env msg s ts hv]
    have hopen : detail.open_file_if_it_is_not_already_open P env s =
        detail.open_file P env s := by
      simp [detail.open_file_if_it_is_not_already_open, is_open, hc]
    rw [hopen]
    obtain ⟨he, hh, _, _, _, hcont⟩ := open_file_fails P env s hc hf
    cases hev : (detail.open_file P env s).error with
    | none => exact absurd hev he
    | some e => exact ⟨by simp, hh, hcont, next_log_opens P _ hh⟩

/-! ### The two overloads, and the threshold of the cleanup -/

theorem log_loc_eq_log (P : Platform Path) (env : Env Path) (msg : String) (loc : SourceLocation)
    (s : State Path) :
    log_loc P env msg loc s =
      log P env ((msg ++ " [" ++ loc.file_name ++ ":" ++ toString loc.line ++ "]") ++ "\n") s := by
  have h : (msg ++ " [" ++ loc.file_name ++ ":" ++ toString loc.line ++ "]") ++ "\n" =
      msg ++ " [" ++ loc.file_name ++ ":" ++ toString loc.line ++ "]\n" := by
    rw [String.append_assoc]
    rfl
  rw [h]
  rfl

theorem delete_old_files_loop_any_threshold (P : Platform Path) (env : Env Path) (now a b : Int)
    (entries : List Path) (s : State Path) :
    detail.delete_old_files_loop P env now a entries s =
      detail.delete_old_files_loop P env now b entries s := by
  induction entries generalizing s with
  | nil => rfl
  | cons entry rest ih =>
    unfold detail.delete_old_files_loop
    simp only [ih]

theorem delete_old_files_any_threshold (P : Platform Path) (env : Env Path) (a b : Int)
    (s : State Path) : delete_old_files P env a s = delete_old_files P env b s := by
  unfold delete_old_files detail.delete_old_files
  simp only [delete_old_files_loop_any_threshold P env env.now a b]


end Facts

end fu

/-! ## The claims -/

namespace fu

section Claims

variable {Path : Type} [DecidableEq Path]

/-- C7: `get_file_path` is `directory / applicationName / (logName ++ ".log")`, joined
with the path operator in that order, where the directory is the stored one
unless it is empty and then the platform data directory, the application
name is the stored one unless it is empty and then the constant "fulog", and
the log name is the stored one unless it is empty and then the decimal
string of the process identifier. -/
theorem get_file_path_resolved (P : Platform Path) (s : State Path) :
    detail.get_file_path P s =
      P.append
        (P.append (if s.dir = P.empty_path then P.get_data_home_dir else s.dir)
          (if s.app_name = "" then "fulog" else s.app_name))
        ((if s.log_name = "" then toString P.get_pid else s.log_name) ++ ".log") := by
  unfold detail.get_file_path detail.resolve_dir detail.resolve_app_name detail.resolve_log_name
    detail.DEFAULT_DIR detail.DEFAULT_APP_NAME detail.DEFAULT_LOG_NAME
  rfl

/-- C6: each of the four setters, called with the value already stored, returns
normally and leaves the whole state as it was (configuration, stream, open
file and its identity, filesystem, and the record of closes and opens); and
a setter called a second time with the value just set does nothing more. -/
theorem setter_same_value_is_noop (P : Platform Path) (env : Env Path) (s : State Path) :
    (set_dir P env s.dir s = ⟨s, none⟩ ∧
      set_application_name P env s.app_name s = ⟨s, none⟩ ∧
      set_log_name P env s.log_name s = ⟨s, none⟩ ∧
      set_timestamp_format P env s.timestamp_format s = ⟨s, none⟩) ∧
    (∀ (env2 : Env Path) (path : Path),
      set_dir P env2 path (set_dir P env path s).state = ⟨(set_dir P env path s).state, none⟩) ∧
    (∀ (env2 : Env Path) (name : String),
      set_application_name P env2 name (set_application_name P env name s).state =
        ⟨(set_application_name P env name s).state, none⟩) ∧
    (∀ (env2 : Env Path) (name : String),
      set_log_name P env2 name (set_log_name P env name s).state =
        ⟨(set_log_name P env name s).state, none⟩) ∧
    (∀ (env2 : Env Path) (format : String),
      set_timestamp_format P env2 format (set_timestamp_format P env format s).state =
        ⟨(set_timestamp_format P env format s).state, none⟩) := by
  have hre := reopen_same_config P env
  refine ⟨⟨?_, ?_, ?_, rfl⟩, ?_, ?_, ?_, ?_⟩
  · simp [set_dir]
  · simp [set_application_name]
  · simp [set_log_name]
  · intro env2 path
    have hd : (set_dir P env path s).state.dir = path := by
      unfold set_dir
      by_cases he : path = s.dir
      · simp [he]
      · simp only [he, if_false]
        exact (hre _).1
    have key : ∀ t : State Path, t.dir = path → set_dir P env2 path t = ⟨t, none⟩ := by
      intro t ht
      unfold set_dir
      rw [if_pos ht.symm]
    exact key _ hd
  · intro env2 name
    have hd : (set_application_name P env name s).state.app_name = name := by
      unfold set_application_name
      by_cases he : name = s.app_name
      · simp [he]
      · simp only [he, if_false]
        exact (hre _).2.1
    have key : ∀ t : State Path, t.app_name = name → set_application_name P env2 name t = ⟨t, none⟩ := by
      intro t ht
      unfold set_application_name
      rw [if_pos ht.symm]
    exact key _ hd
  · intro env2 name
    have hd : (set_log_name P env name s).state.log_name = name := by
      unfold set_log_name
      by_cases he : name = s.log_name
      · simp [he]
      · simp only [he, if_false]
        exact (hre _).2.2.1
    have key : ∀ t : State Path, t.log_name = name → set_log_name P env2 name t = ⟨t, none⟩ := by
      intro t ht
      unfold set_log_name
      rw [if_pos ht.symm]
    exact key _ hd
  · intro env2 format
    rfl

/-- C10: on a state whose stream is closed, every setter returns normally and
changes nothing but the configuration field it names: the stream stays
closed, the filesystem and the record of operations are as before; the file
is opened by the next `log` call. -/
theorem setter_on_closed_stream (P : Platform Path) (env : Env Path) (s : State Path)
    (hc : s.file.handle = none) (path : Path) (name format : String) :
    set_dir P env path s = ⟨{ s with dir := path }, none⟩ ∧
    set_application_name P env name s = ⟨{ s with app_name := name }, none⟩ ∧
    set_log_name P env name s = ⟨{ s with log_name := name }, none⟩ ∧
    set_timestamp_format P env format s = ⟨{ s with timestamp_format := format }, none⟩ ∧
    ∀ o, o ∈ [set_dir P env path s, set_application_name P env name s,
        set_log_name P env name s, set_timestamp_format P env format s] →
      o.error = none ∧ o.state.file.handle = none ∧ o.state.fs = s.fs ∧
        o.state.trace = s.trace ∧ o.state.opens = s.opens ∧ NextLogOpens P o.state := by
  have h1 : set_dir P env path s = ⟨{ s with dir := path }, none⟩ := by
    unfold set_dir
    by_cases he : path = s.dir
    · subst he
      simp
    · rw [if_neg he]
      exact reopen_closed P env _ hc
  have h2 : set_application_name P env name s = ⟨{ s with app_name := name }, none⟩ := by
    unfold set_application_name
    by_cases he : name = s.app_name
    · subst he
      simp
    · rw [if_neg he]
      exact reopen_closed P env _ hc
  have h3 : set_log_name P env name s = ⟨{ s with log_name := name }, none⟩ := by
    unfold set_log_name
    by_cases he : name = s.log_name
    · subst he
      simp
    · rw [if_neg he]
      exact reopen_closed P env _ hc
  have h4 : set_timestamp_format P env format s =
      ⟨{ s with timestamp_format := format }, none⟩ := rfl
  refine ⟨h1, h2, h3, h4, ?_⟩
  intro o ho
  simp only [List.mem_cons, List.mem_singleton, List.not_mem_nil, or_false] at ho
  rcases ho with ho | ho | ho | ho
  · rw [ho, h1]
    exact ⟨rfl, hc, rfl, rfl, rfl, next_log_opens P _ hc⟩
  · rw [ho, h2]
    exact ⟨rfl, hc, rfl, rfl, rfl, next_log_opens P _ hc⟩
  · rw [ho, h3]
    exact ⟨rfl, hc, rfl, rfl, rfl, next_log_opens P _ hc⟩
  · rw [ho, h4]
    exact ⟨rfl, hc, rfl, rfl, rfl, next_log_opens P _ hc⟩

/-- C5: in every state reachable from process start through the public functions,
failing calls included, an open stream is open on the path `get_file_path`
computes from the current directory, application name and log name. -/
theorem open_handle_at_resolved_path (P : Platform Path) (s : State Path)
    (hr : Reachable P s) (h : Handle Path) (hh : s.file.handle = some h) :
    h.path = detail.get_file_path P s :=
  ((reachable_attached P s hr).1 h hh).1

/-- C9, as amended: when opening the resolved log path fails, a `log` call made with
the stream closed, and a `set_dir`, `set_application_name` or `set_log_name`
call that changes the stored value while the stream is open, throws; the
stream is closed afterwards and the next `log` call opens anew.  The `log`
call changes no file content.  The setter call changes none either when the
stream holds nothing pending; when an earlier flush failed, closing the
stream may write the pending output, and then only the file that was open
can change. -/
theorem open_failure_is_reported (P : Platform Path) (env : Env Path) (s : State Path) :
    (s.file.handle = none →
      open_fails P env s.fs (detail.get_file_path P s) = true →
      ∀ msg, FailedClosed P s (log P env msg s)) ∧
    (s.file.handle ≠ none → ∀ path, path ≠ s.dir →
      open_fails P env s.fs (detail.get_file_path P { s with dir := path }) = true →
      FailedReopen P s (set_dir P env path s)) ∧
    (s.file.handle ≠ none → ∀ name, name ≠ s.app_name →
      open_fails P env s.fs (detail.get_file_path P { s with app_name := name }) = true →
      FailedReopen P s (set_application_name P env name s)) ∧
    (s.file.handle ≠ none → ∀ name, name ≠ s.log_name →
      open_fails P env s.fs (detail.get_file_path P { s with log_name := name }) = true →
      FailedReopen P s (set_log_name P env name s)) := by
  refine ⟨fun hc hf msg => log_open_fails P env msg s hc hf, ?_, ?_, ?_⟩
  · intro ho path hne hf
    unfold set_dir
    rw [if_neg hne]
    exact reopen_fails P env { s with dir := path } ho hf
  · intro ho name hne hf
    unfold set_application_name
    rw [if_neg hne]
    exact reopen_fails P env { s with app_name := name } ho hf
  · intro ho name hne hf
    unfold set_log_name
    rw [if_neg hne]
    exact reopen_fails P env { s with log_name := name } ho hf

/-- C4, as amended: with the stream open at `h.path`, a `set_dir`,
`set_application_name` or `set_log_name` call with a value other than the
stored one, for which the open of the newly resolved path does not fail,
leaves the stream open at that path; a following `log` that goes through
appends its line to the file there and, when the old path names another
file (its canonical path is another one), leaves the file at the old path
unchanged. -/
theorem reopen_on_change (P : Platform Path) (env : Env Path) (s : State Path)
    (h : Handle Path) (hh : s.file.handle = some h) :
    (∀ path, path ≠ s.dir →
      open_fails P env s.fs (detail.get_file_path P { s with dir := path }) = false →
      ReopenedAt P h.path (detail.get_file_path P { s with dir := path })
        (set_dir P env path s)) ∧
    (∀ name, name ≠ s.app_name →
      open_fails P env s.fs (detail.get_file_path P { s with app_name := name }) = false →
      ReopenedAt P h.path (detail.get_file_path P { s with app_name := name })
        (set_application_name P env name s)) ∧
    (∀ name, name ≠ s.log_name →
      open_fails P env s.fs (detail.get_file_path P { s with log_name := name }) = false →
      ReopenedAt P h.path (detail.get_file_path P { s with log_name := name })
        (set_log_name P env name s)) := by
  have ho : s.file.handle ≠ none := by
    rw [hh]
    exact Option.some_ne_none h
  refine ⟨?_, ?_, ?_⟩
  · intro path hne hf
    unfold set_dir
    rw [if_neg hne]
    exact reopen_succeeds P env { s with dir := path } h.path ho hf
  · intro name hne hf
    unfold set_application_name
    rw [if_neg hne]
    exact reopen_succeeds P env { s with app_name := name } h.path ho hf
  · intro name hne hf
    unfold set_log_name
    rw [if_neg hne]
    exact reopen_succeeds P env { s with log_name := name } h.path ho hf

/-- C1, as amended: in every reachable state whose stream is closed, or open on a
file whose directory entry has not been removed since it was opened, a
`log(msg)` call that goes through (it returns normally and the stream is
good afterwards) leaves the file at the resolved log path holding its
previous content (nothing, when the call created it) followed by exactly
the line `ts ++ " " ++ msg ++ "\n"`, where `ts` is the time truncated to whole
seconds in the resolved timestamp format (the stored pattern unless it is
empty, then the default one); the content of every other file is unchanged.
Files go by their canonical path, the file at a path being the one its
canonical path names. -/
theorem log_appends_one_line (P : Platform Path) (env : Env Path) (msg : String)
    (s : State Path) (hr : Reachable P s)
    (hl : ∀ h, s.file.handle = some h → h.unlinked = false)
    (herr : (log P env msg s).error = none)
    (hgood : (log P env msg s).state.file.failed = false) :
    ∃ ts, P.vformat
        (if s.timestamp_format = "" then "\x7b:%Y-%m-%d %H:%M:%S\x7d" else s.timestamp_format)
        (Int.tdiv env.now P.ticks_per_second) = some ts ∧
      FS.content (log P env msg s).state.fs (P.canonical (detail.get_file_path P s)) =
        some ((FS.content s.fs (P.canonical (detail.get_file_path P s))).getD "" ++
          (ts ++ " " ++ msg ++ "\n")) ∧
      ∀ q, q ≠ P.canonical (detail.get_file_path P s) →
        FS.content (log P env msg s).state.fs q = FS.content s.fs q :=
  log_appends P env msg s (reachable_attached P s hr) hl herr hgood

/-- C8, as amended: when the insertion of the line or the flush fails, the `log` call
still returns normally, reporting nothing; the stream is left in a failed
state and is still open. -/
theorem log_returns_normally_on_write_failure (P : Platform Path) (env : Env Path)
    (msg : String) (s : State Path) (ts : String)
    (hv : P.vformat (detail.resolve_timestamp_format s)
      (Int.tdiv env.now P.ticks_per_second) = some ts)
    (hopen : s.file.handle ≠ none ∨ open_fails P env s.fs (detail.get_file_path P s) = false)
    (hfail : env.write_ok = false ∨ env.flush_ok = false) :
    (log P env msg s).error = none ∧ is_open (log P env msg s).state = true ∧
      (log P env msg s).state.file.failed = true := by
  rw [log_of_vformat P env msg s ts hv]
  have hstep : (detail.open_file_if_it_is_not_already_open P env s).error = none ∧
      (detail.open_file_if_it_is_not_already_open P env s).state.file.handle ≠ none := by
    unfold detail.open_file_if_it_is_not_already_open is_open
    cases hh : s.file.handle with
    | some h => simp [hh]
    | none =>
      rcases hopen with hopen | hopen
      · exact absurd hh hopen
      · obtain ⟨he, hfile, _⟩ := open_file_succeeds P env s hh hopen
        simp only [Option.isSome_none, Bool.not_false, if_true]
        refine ⟨he, ?_⟩
        rw [hfile]
        simp
  obtain ⟨he, hne⟩ := hstep
  simp only [he]
  refine ⟨trivial, ?_, write_failed P env _ _ hne hfail⟩
  unfold is_open
  rw [(write_keeps P env _ _).1]
  cases hh : (detail.open_file_if_it_is_not_already_open P env s).state.file.handle with
  | none => exact absurd hh hne
  | some h => rfl

end Claims

/-! ## Evaluations on the sample platform -/

section Evaluations

open sample

/-- C1, as stated, fails: after `log("a")` and a `delete_old_files` call forty-nine
hours later, which removes the log file, a further `log("b")` returns
normally with the stream good, and there is no file at the resolved log path. -/
theorem log_after_cleanup_misses_the_path :
    Reachable posix cleaned ∧
      (log posix (fine forty_nine_hours) "b" cleaned).error = none ∧
      (log posix (fine forty_nine_hours) "b" cleaned).state.file.failed = false ∧
      detail.get_file_path posix cleaned = log_path ∧
      FS.content (log posix (fine forty_nine_hours) "b" cleaned).state.fs log_path = none :=
  ⟨Reachable.delete_old_files _ _ _ (Reachable.log _ _ _ (Reachable.init _)),
    by decide, by decide, by decide, by decide⟩

/-- Witness of `log_appends_one_line`: the first `log("hi")` after process start. -/
theorem log_appends_one_line_witness :
    Reachable posix started ∧
      (∀ h, started.file.handle = some h → h.unlinked = false) ∧
      (log posix (fine 0) "hi" started).error = none ∧
      (log posix (fine 0) "hi" started).state.file.failed = false ∧
      ∃ ts, vformat "\x7b:%Y-%m-%d %H:%M:%S\x7d" 0 = some ts ∧
        FS.content (log posix (fine 0) "hi" started).state.fs
            (posix.canonical (detail.get_file_path posix started)) =
          some ((FS.content started.fs
              (posix.canonical (detail.get_file_path posix started))).getD "" ++
            (ts ++ " " ++ "hi" ++ "\n")) ∧
        ∀ q, q ≠ posix.canonical (detail.get_file_path posix started) →
          FS.content (log posix (fine 0) "hi" started).state.fs q = FS.content started.fs q :=
  ⟨Reachable.init _, (fun h hh => by cases hh), by decide, by decide,
    log_appends_one_line posix (fine 0) "hi" started (Reachable.init _)
      (fun h hh => by cases hh) (by decide) (by decide)⟩

/-- C8, as stated, fails: with the insertion rejected, and likewise with the flush
failing, `log("hi")` returns normally although the stream has failed. -/
theorem log_swallows_write_failure :
    write_refused.write_ok = false ∧
      (log posix write_refused "hi" started).error = none ∧
      (log posix write_refused "hi" started).state.file.failed = true ∧
      flush_refused.flush_ok = false ∧
      (log posix flush_refused "hi" started).error = none ∧
      (log posix flush_refused "hi" started).state.file.failed = true :=
  ⟨rfl, by decide, by decide, rfl, by decide, by decide⟩

/-- Witness of `log_returns_normally_on_write_failure`: a rejected insertion on the
first `log("hi")`. -/
theorem log_returns_normally_on_write_failure_witness :
    vformat (detail.resolve_timestamp_format started)
        (Int.tdiv write_refused.now posix.ticks_per_second) = some "1970-01-01 00:00:00" ∧
      (started.file.handle ≠ none ∨
        open_fails posix write_refused started.fs (detail.get_file_path posix started) = false) ∧
      (write_refused.write_ok = false ∨ write_refused.flush_ok = false) ∧
      (log posix write_refused "hi" started).error = none ∧
      is_open (log posix write_refused "hi" started).state = true ∧
      (log posix write_refused "hi" started).state.file.failed = true :=
  ⟨by decide, Or.inr (by decide), Or.inl rfl,
    log_returns_normally_on_write_failure posix write_refused "hi" started
      "1970-01-01 00:00:00" (by decide) (Or.inr (by decide)) (Or.inl rfl)⟩

/-- C2 on the code: `log("X", a.cc:42)` appends the line followed by a second
newline, where `log("X [a.cc:42]")` appends the line alone. -/
theorem log_loc_appends_blank_line :
    FS.content (log_loc posix (fine 0) "X" ⟨"a.cc", 42⟩ started).state.fs log_path =
        some "1970-01-01 00:00:00 X [a.cc:42]\n\n" ∧
      FS.content (log posix (fine 0) "X [a.cc:42]" started).state.fs log_path =
        some "1970-01-01 00:00:00 X [a.cc:42]\n" :=
  ⟨by decide, by decide⟩

/-- C3 on the code: with `older_than` one hour, a regular file one tick older than
that is kept; with `older_than` seventy-two hours, a regular file forty-eight
hours and one tick old is removed; and a symbolic link to such a file is
removed as well. -/
theorem delete_old_files_ignores_older_than :
    FS.lookup (delete_old_files posix (fine (one_hour + 1)) one_hour one_file).state.fs
        "/home/u/.local/share/fulog/1.log" = some ⟨FileType.regular, false, 0, "x\n"⟩ ∧
      FS.lookup (delete_old_files posix (fine (48 * one_hour + 1)) (72 * one_hour)
        one_file).state.fs "/home/u/.local/share/fulog/1.log" = none ∧
      FS.lookup (delete_old_files posix (fine (48 * one_hour + 1)) (72 * one_hour)
        one_link).state.fs "/home/u/.local/share/fulog/link.log" = none :=
  ⟨by decide, by decide, by decide⟩

/-- Witness of `setter_on_closed_stream`: the setters at process start. -/
theorem setter_on_closed_stream_witness :
    started.file.handle = none ∧
      set_dir posix (fine 0) "/var/log" started = ⟨{ started with dir := "/var/log" }, none⟩ :=
  ⟨rfl, (setter_on_closed_stream posix (fine 0) started rfl "/var/log" "app" "%H").1⟩

/-- Witness of `open_handle_at_resolved_path`: the state after the first `log`. -/
theorem open_handle_at_resolved_path_witness :
    Reachable posix logged ∧ logged.file.handle = some ⟨log_path, 0, false⟩ ∧
      log_path = detail.get_file_path posix logged :=
  ⟨Reachable.log _ _ _ (Reachable.init _), by decide,
    open_handle_at_resolved_path posix logged (Reachable.log _ _ _ (Reachable.init _))
      ⟨log_path, 0, false⟩ (by decide)⟩

/-- Witness of `open_failure_is_reported`: a refused open on the first `log`, and on a
`set_dir` made while the stream is open. -/
theorem open_failure_is_reported_witness :
    (started.file.handle = none ∧
      open_fails posix open_refused started.fs (detail.get_file_path posix started) = true ∧
      FailedClosed posix started (log posix open_refused "hi" started)) ∧
    (logged.file.handle ≠ none ∧ "/var/log" ≠ logged.dir ∧
      open_fails posix open_refused logged.fs
        (detail.get_file_path posix { logged with dir := "/var/log" }) = true ∧
      FailedReopen posix logged (set_dir posix open_refused "/var/log" logged)) :=
  ⟨⟨rfl, by decide,
      (open_failure_is_reported posix open_refused started).1 rfl (by decide) "hi"⟩,
    ⟨by decide, by decide, by decide,
      (open_failure_is_reported posix open_refused logged).2.1 (by decide) "/var/log"
        (by decide) (by decide)⟩⟩

/-- C4, as stated, fails: with the stream open at `/r/d/fulog/t.log`, `set_dir("/r/d/.")`
changes the stored directory and reopens at `/r/d/./fulog/t.log`, another
path for the same file; the following `log("b")` goes through and the file
at the old path gains its line. -/
theorem reopen_at_alias_writes_old_path :
    first_line.file.handle = some ⟨"/r/d/fulog/t.log", 0, false⟩ ∧
      "/r/d/." ≠ first_line.dir ∧
      open_fails posix (fine 0) first_line.fs
        (detail.get_file_path posix { first_line with dir := "/r/d/." }) = false ∧
      dotted.error = none ∧
      dotted.state.file.handle = some ⟨"/r/d/./fulog/t.log", 1, false⟩ ∧
      "/r/d/fulog/t.log" ≠ "/r/d/./fulog/t.log" ∧
      (log posix (fine 0) "b" dotted.state).error = none ∧
      (log posix (fine 0) "b" dotted.state).state.file.failed = false ∧
      FS.content dotted.state.fs (posix.canonical "/r/d/fulog/t.log") =
        some "1970-01-01 00:00:00 a\n" ∧
      FS.content (log posix (fine 0) "b" dotted.state).state.fs
          (posix.canonical "/r/d/fulog/t.log") =
        some "1970-01-01 00:00:00 a\n1970-01-01 00:00:00 b\n" :=
  ⟨by decide, by decide, by decide, by decide, by decide, by decide, by decide, by decide,
    by decide, by decide⟩

/-- C9, as stated, fails: after `log("a")` and a `log("b")` whose flush failed, a
`set_dir("/var/log")` for which the open is refused throws, and in closing
the stream it has written the pending line to the old log file. -/
theorem failed_reopen_writes_pending_line :
    Reachable posix half_written ∧ half_written.file.handle ≠ none ∧
      "/var/log" ≠ half_written.dir ∧
      open_fails posix open_refused half_written.fs
        (detail.get_file_path posix { half_written with dir := "/var/log" }) = true ∧
      (set_dir posix open_refused "/var/log" half_written).error ≠ none ∧
      FS.content half_written.fs log_path = some "1970-01-01 00:00:00 a\n" ∧
      FS.content (set_dir posix open_refused "/var/log" half_written).state.fs log_path =
        some "1970-01-01 00:00:00 a\n1970-01-01 00:00:00 b\n" :=
  ⟨Reachable.log _ _ _ (Reachable.log _ _ _ (Reachable.init _)),
    by decide, by decide, by decide, by decide, by decide, by decide⟩

/-- Witness of `reopen_on_change`: `set_application_name("app")` after the first `log`. -/
theorem reopen_on_change_witness :
    logged.file.handle = some ⟨log_path, 0, false⟩ ∧ "app" ≠ logged.app_name ∧
      open_fails posix (fine 0) logged.fs
        (detail.get_file_path posix { logged with app_name := "app" }) = false ∧
      ReopenedAt posix log_path (detail.get_file_path posix { logged with app_name := "app" })
        (set_application_name posix (fine 0) "app" logged) :=
  ⟨by decide, by decide, by decide,
    (reopen_on_change posix (fine 0) logged ⟨log_path, 0, false⟩ (by decide)).2.1 "app"
      (by decide) (by decide)⟩

/-- The default log path on the sample platform. -/
theorem get_file_path_sample_default : detail.get_file_path posix started = log_path := by
  decide

end Evaluations


end fu
